import Mathlib

/-!
Verification development for the Deterministic-UI-Generator repository.

The TypeScript sources are embedded shallowly:
* JavaScript runtime values carried in `props`/`unknown` positions are
  modelled by `DUG.JValue` (numbers as integers; none of the verified
  code performs numeric arithmetic beyond printing).
* The UI AST (`UIASTNode`, text children, `UIAST`) is `DUG.Child` and
  `DUG.UIAST`; the TypeScript field `type` is rendered as `ty` where
  Lean needs it.
* Stateful TypeScript (accumulating error arrays, in-place tree edits)
  is translated to explicit state passing; `structuredClone` on pure
  values is the identity; thrown exceptions become `Except.error`.
* Zod issue messages are abridged to short fixed strings: no verified
  property depends on the exact wording of an issue, only on its
  classification (unrecognized key vs invalid value) and presence.
-/

namespace DUG

/-- A JavaScript runtime value (as used for `unknown` prop values).
Numbers are modelled as integers: the embedded code only compares,
stores and prints them. -/
inductive JValue where
  | str (s : String)
  | num (n : Int)
  | bool (b : Bool)
  | arr (xs : List JValue)
  | obj (fields : List (String × JValue))
  | null

/-- First-match field lookup in a JS object, `fields[k]`.
JS objects have no duplicate keys, so first match is the match. -/
def lookupField (fields : List (String × JValue)) (k : String) : Option JValue :=
  (fields.find? (fun kv => kv.1 = k)).map (fun kv => kv.2)

/-- JS object spread `{ ...old, ...upd }` on props mappings: keys of
`old` keep their positions (values overwritten by `upd` where the key
recurs), keys only in `upd` are appended in `upd` order. -/
def jsSpreadMerge (old upd : List (String × JValue)) : List (String × JValue) :=
  old.map (fun kv => (kv.1, (lookupField upd kv.1).getD kv.2)) ++
    upd.filter (fun kv => ¬ old.any (fun kv2 => kv2.1 = kv.1))

/-- A child of an AST node: either a text leaf or a nested component
node (`UIASTNode` has `type`, `props`, `children` in the source). -/
inductive Child where
  | text (s : String)
  | node (ty : String) (props : List (String × JValue)) (children : List Child)

/-- `typeof c === "string"` test from the source, i.e. a text leaf. -/
def Child.isText : Child → Bool
  | .text _ => true
  | .node _ _ _ => false

/-- The UI Document (`UIAST`): layout, theme and the top-level
component list.  The TypeScript type says `components: UIASTNode[]`;
we model it as a children list (the patch engine itself treats it as
one and filters text leaves back out). -/
structure UIAST where
  layout : String
  theme : String
  components : List Child

/-- A patch (`PatchSchema`): action is one of add/update/remove as a
string (the engine keeps a default branch for unknown actions), with
optional component payload and optional props payload.
`component` is an `UIASTNode` in the source; a missing `component` on
an `add` reaches `addNode` as JS `undefined` (via `component!`), which
the typed children list cannot hold — no theorem below relies on that
case. -/
structure Patch where
  action : String
  targetPath : String
  component : Option Child
  props : Option (List (String × JValue))

/-! ## Patch engine (`applyPatches` and helpers) -/

/-- Literal characters of the path-segment pattern `children[`. -/
def pathPatChars : List Char := ['c', 'h', 'i', 'l', 'd', 'r', 'e', 'n', '[']

/-- Scanner state for `parsePath`: either matching the literal
`children[` prefix (k characters matched) or accumulating digits. -/
inductive PPState where
  | matching (k : Nat)
  | digits (acc : Nat) (seen : Bool)

/-- Restart the scan at the current character (the pattern has no
internal repeated `c`, so the JS regex backtracking `lastIndex`
semantics coincide with re-examining just the failing character). -/
def ppRestart (c : Char) : PPState :=
  if c = 'c' then .matching 1 else .matching 0

/-- Core scanner for `parsePath`: extracts every `children[<digits>]`
segment of the string, left to right, exactly like repeated
`/children\[(\d+)\]/g.exec`. -/
def parsePathGo : PPState → List Char → List Nat
  | _, [] => []
  | .matching k, c :: rest =>
      if c = pathPatChars.getD k ' ' then
        if k = 8 then parsePathGo (.digits 0 false) rest
        else parsePathGo (.matching (k + 1)) rest
      else parsePathGo (ppRestart c) rest
  | .digits acc seen, c :: rest =>
      if c.isDigit then
        parsePathGo (.digits (acc * 10 + (c.toNat - 48)) true) rest
      else if c = ']' then
        if seen then acc :: parsePathGo (.matching 0) rest
        else parsePathGo (ppRestart c) rest
      else parsePathGo (ppRestart c) rest

/-- `parsePath`: the index of every `children[<digits>]` segment found
anywhere in the target path (all other text is ignored by the regex
loop). -/
def parsePath (targetPath : String) : List Nat :=
  parsePathGo (.matching 0) targetPath.data

/-- Navigation plus action at the final step, the functional rendering
of `navigateToTarget` followed by the caller's mutation of
`parent.children`.  `act` performs the final-step edit on the parent's
children; the result pairs the updated children of the current level
with the parent's post-edit children list (which `addNode` aliases as
`parent.children` for its components re-sync).  `i` is the 0-based
step counter used in error messages. -/
def navModify (act : List Child → Nat → Except String (List Child))
    (i : Nat) (cs : List Child) :
    Nat → List Nat → Except String (List Child × List Child)
  | last, [] => do
      let r ← act cs last
      pure (r, r)
  | idx, next :: more =>
      match cs.get? idx with
      | some (.text _) =>
          .error ("Path step " ++ toString i ++ " at index " ++ toString idx ++
            " points to a text node, not a component")
      | none =>
          .error ("Path step " ++ toString i ++ " at index " ++ toString idx ++
            " is out of bounds (" ++ toString cs.length ++ " children)")
      | some (.node ty props children) => do
          let (cs2, pr) ← navModify act (i + 1) children next more
          pure (cs.set idx (.node ty props cs2), pr)

/-- The final-step edit of `addNode`: insert immediately after `index`
(or push at the end when `index >= length`). -/
def addInsertAct (component : Option Child) (cs : List Child) (index : Nat) :
    Except String (List Child) :=
  if index ≥ cs.length then .ok (cs ++ component.toList)
  else .ok (cs.take (index + 1) ++ component.toList ++ cs.drop (index + 1))

/-- `addNode`: empty step list appends to the document's top-level
components; otherwise insert under the navigated parent and then
re-assign `result.components` from that parent's children filtered to
non-text entries (the source's `// Sync components back` step). -/
def addNode (ast : UIAST) (targetPath : String) (component : Option Child) :
    Except String UIAST :=
  match parsePath targetPath with
  | [] => .ok { ast with components := ast.components ++ component.toList }
  | s0 :: rest => do
      let (_, parentChildren) ← navModify (addInsertAct component) 0 ast.components s0 rest
      pure { ast with components := parentChildren.filter (fun c => ¬ c.isText) }

/-- The final-step edit of `updateNode`: text target and absent target
are errors; a supplied component replaces the node wholesale; else a
supplied props mapping is shallow-merged; else the node is untouched. -/
def updateAct (targetPath : String) (component : Option Child)
    (props : Option (List (String × JValue))) (cs : List Child) (index : Nat) :
    Except String (List Child) :=
  match cs.get? index with
  | some (.text _) => .error ("Cannot update a text node at \"" ++ targetPath ++ "\"")
  | none => .error ("No node at \"" ++ targetPath ++ "\"")
  | some (.node ty p children) =>
      match component with
      | some c => .ok (cs.set index c)
      | none =>
          match props with
          | some newProps => .ok (cs.set index (.node ty (jsSpreadMerge p newProps) children))
          | none => .ok cs

/-- `updateNode`: an empty parsed path is the `Invalid target path`
error from `navigateToTarget`; otherwise edit at the target. -/
def updateNode (ast : UIAST) (targetPath : String) (component : Option Child)
    (props : Option (List (String × JValue))) : Except String UIAST :=
  match parsePath targetPath with
  | [] => .error ("Invalid target path: \"" ++ targetPath ++ "\"")
  | s0 :: rest => do
      let (newComponents, _) ← navModify (updateAct targetPath component props) 0 ast.components s0 rest
      pure { ast with components := newComponents }

/-- The final-step edit of `removeNode`: out-of-range index is an
error, otherwise `splice(index, 1)`. -/
def removeAct (targetPath : String) (cs : List Child) (index : Nat) :
    Except String (List Child) :=
  if index ≥ cs.length then
    .error ("No node at index " ++ toString index ++ " in \"" ++ targetPath ++ "\"")
  else .ok (cs.eraseIdx index)

/-- `removeNode`. -/
def removeNode (ast : UIAST) (targetPath : String) : Except String UIAST :=
  match parsePath targetPath with
  | [] => .error ("Invalid target path: \"" ++ targetPath ++ "\"")
  | s0 :: rest => do
      let (newComponents, _) ← navModify (removeAct targetPath) 0 ast.components s0 rest
      pure { ast with components := newComponents }

/-- `applySinglePatch`: dispatch on the action string (unknown actions
throw). -/
def applySinglePatch (ast : UIAST) (patch : Patch) : Except String UIAST :=
  if patch.action = "add" then addNode ast patch.targetPath patch.component
  else if patch.action = "update" then updateNode ast patch.targetPath patch.component patch.props
  else if patch.action = "remove" then removeNode ast patch.targetPath
  else .error ("Unknown patch action: " ++ patch.action)

/-- The result record of `applyPatches`. -/
structure PatchResult where
  success : Bool
  ast : UIAST
  appliedPatches : Nat
  errors : List String

/-- Sequential patch loop of `applyPatches`: each failure is recorded
and skipped, each success replaces the working copy and is counted. -/
def applyPatchesGo (current : UIAST) (errors : List String) (applied : Nat) :
    List Patch → PatchResult
  | [] =>
      { success := errors.isEmpty, ast := current,
        appliedPatches := applied, errors := errors }
  | p :: rest =>
      match applySinglePatch current p with
      | .ok next => applyPatchesGo next errors (applied + 1) rest
      | .error msg =>
          applyPatchesGo current
            (errors ++ ["Patch \"" ++ p.action ++ "\" at \"" ++ p.targetPath ++ "\": " ++ msg])
            applied rest

/-- `applyPatches`: apply a list of patches sequentially to a working
copy (`structuredClone` of a pure value is the identity). -/
def applyPatches (ast : UIAST) (patches : List Patch) : PatchResult :=
  applyPatchesGo ast [] 0 patches

/-! ## Component registry prop schemas (`ui-ast.ts`)

Each zod object schema is a list of field specifications in shape
order; all schemas are `.strict()` objects of optional fields, some
with defaults.  A field's `domain` is its value-domain test (enum
membership, literal membership, primitive type, chart-data shape). -/

/-- One declared property of a component schema. -/
structure FieldSpec where
  name : String
  domain : JValue → Bool
  dflt : Option JValue

/-- Value domain: a string drawn from an enum. -/
def strEnum (allowed : List String) : JValue → Bool
  | .str s => allowed.contains s
  | _ => false

/-- Value domain: a number drawn from a literal union. -/
def numLits (allowed : List Int) : JValue → Bool
  | .num n => allowed.contains n
  | _ => false

/-- Value domain: any boolean. -/
def isBoolV : JValue → Bool
  | .bool _ => true
  | _ => false

/-- Value domain: any string. -/
def isStrV : JValue → Bool
  | .str _ => true
  | _ => false

/-- One chart-data entry: an object with a string `label` and a
numeric `value` (extra entry keys pass, the entry object schema is not
strict). -/
def isChartEntry : JValue → Bool
  | .obj fs =>
      (match lookupField fs "label" with
        | some (.str _) => true
        | _ => false) &&
      (match lookupField fs "value" with
        | some (.num _) => true
        | _ => false)
  | _ => false

/-- `ChartDataSchema`: an array of chart-data entries. -/
def isChartData : JValue → Bool
  | .arr xs => xs.all isChartEntry
  | _ => false

/-- `elevation` field with its per-component default. -/
def fElevation (d : Int) : FieldSpec := ⟨"elevation", numLits [0, 1, 2, 3], some (.num d)⟩

/-- `animation` field with its per-component default. -/
def fAnimation (d : String) : FieldSpec :=
  ⟨"animation", strEnum ["none", "fade", "slide"], some (.str d)⟩

/-- `variant` field over the shared `VariantEnum` with a default. -/
def fVariant (d : String) : FieldSpec :=
  ⟨"variant", strEnum ["primary", "secondary", "ghost"], some (.str d)⟩

/-- Optional string-valued field with no default. -/
def fStr (n : String) : FieldSpec := ⟨n, isStrV, none⟩

/-- Optional boolean field, optionally defaulted. -/
def fBool (n : String) (d : Option Bool) : FieldSpec := ⟨n, isBoolV, d.map JValue.bool⟩

def ButtonPropsSchema : List FieldSpec :=
  [⟨"variant", strEnum ["primary", "secondary", "outline", "ghost", "destructive"],
      some (.str "primary")⟩,
   ⟨"size", strEnum ["sm", "md", "lg", "icon"], some (.str "md")⟩,
   fElevation 0, fAnimation "none",
   fBool "isLoading" (some false),
   fStr "onClick", fStr "children",
   fBool "disabled" none]

def InputPropsSchema : List FieldSpec :=
  [⟨"type", strEnum ["text", "password", "email", "number"], some (.str "text")⟩,
   fStr "label", fStr "error", fStr "placeholder",
   fElevation 0, fAnimation "none"]

def CardPropsSchema : List FieldSpec :=
  [fVariant "primary", fElevation 1, fAnimation "none"]

def BoxPropsSchema : List FieldSpec :=
  [⟨"padding", strEnum ["none", "sm", "md", "lg"], some (.str "md")⟩,
   ⟨"background", strEnum ["default", "muted", "brand"], some (.str "default")⟩,
   fElevation 0, fAnimation "none"]

def StackPropsSchema : List FieldSpec :=
  [⟨"direction", strEnum ["row", "column"], some (.str "column")⟩,
   ⟨"gap", strEnum ["none", "sm", "md", "lg"], some (.str "md")⟩,
   ⟨"align", strEnum ["start", "center", "end", "stretch"], some (.str "stretch")⟩,
   ⟨"justify", strEnum ["start", "center", "end", "between"], some (.str "start")⟩,
   fElevation 0, fAnimation "none"]

def GridPropsSchema : List FieldSpec :=
  [⟨"columns", numLits [1, 2, 3, 4], some (.num 1)⟩,
   ⟨"gap", strEnum ["sm", "md", "lg"], some (.str "md")⟩,
   fBool "responsive" (some true),
   fElevation 0, fAnimation "none"]

def ContainerPropsSchema : List FieldSpec := [fElevation 0, fAnimation "none"]

def HeadingPropsSchema : List FieldSpec :=
  [⟨"level", numLits [1, 2, 3, 4], some (.num 1)⟩,
   fStr "children", fElevation 0, fAnimation "none"]

def TextPropsSchema : List FieldSpec :=
  [⟨"size", strEnum ["sm", "md", "lg"], some (.str "md")⟩,
   ⟨"type", strEnum ["default", "muted"], some (.str "default")⟩,
   fStr "children", fElevation 0, fAnimation "none"]

def ModalPropsSchema : List FieldSpec :=
  [fBool "isOpen" (some false), fStr "onClose", fStr "title",
   fVariant "primary", fElevation 2, fAnimation "fade"]

def NavbarPropsSchema : List FieldSpec :=
  [fStr "logo", fVariant "primary", fElevation 1, fAnimation "none",
   fBool "hasDropdown" (some false)]

def SidebarPropsSchema : List FieldSpec :=
  [fVariant "primary", fElevation 0, fAnimation "none",
   fBool "collapsible" (some false), fBool "defaultCollapsed" (some false)]

def SidebarItemPropsSchema : List FieldSpec :=
  [fBool "isActive" (some false), fStr "icon", fStr "children"]

/-- Shared shape of the three chart components. -/
def chartPropsSchema : List FieldSpec :=
  [fStr "title", ⟨"data", isChartData, none⟩,
   ⟨"size", strEnum ["sm", "md", "lg"], some (.str "md")⟩,
   fVariant "primary", fElevation 0, fAnimation "fade"]

def TablePropsSchema : List FieldSpec := [fElevation 0, fAnimation "none"]

/-- Schema of the empty strict objects (`CardHeader` etc.). -/
def emptyPropsSchema : List FieldSpec := []

/-- Schema of the strict objects with only an optional string
`children` (`CardTitle`, `TableCell`, ...). -/
def childrenOnlySchema : List FieldSpec := [fStr "children"]

/-- `COMPONENT_PROP_SCHEMAS`, in source insertion order. -/
def COMPONENT_PROP_SCHEMAS : List (String × List FieldSpec) :=
  [("Button", ButtonPropsSchema),
   ("Input", InputPropsSchema),
   ("Card", CardPropsSchema),
   ("CardHeader", emptyPropsSchema),
   ("CardTitle", childrenOnlySchema),
   ("CardDescription", childrenOnlySchema),
   ("CardContent", emptyPropsSchema),
   ("CardFooter", emptyPropsSchema),
   ("Box", BoxPropsSchema),
   ("Stack", StackPropsSchema),
   ("Grid", GridPropsSchema),
   ("Container", ContainerPropsSchema),
   ("Heading", HeadingPropsSchema),
   ("Text", TextPropsSchema),
   ("Modal", ModalPropsSchema),
   ("Navbar", NavbarPropsSchema),
   ("Sidebar", SidebarPropsSchema),
   ("SidebarItem", SidebarItemPropsSchema),
   ("BarChart", chartPropsSchema),
   ("LineChart", chartPropsSchema),
   ("PieChart", chartPropsSchema),
   ("Table", TablePropsSchema),
   ("TableHeader", emptyPropsSchema),
   ("TableBody", emptyPropsSchema),
   ("TableRow", emptyPropsSchema),
   ("TableHead", childrenOnlySchema),
   ("TableCell", childrenOnlySchema),
   ("TableFooter", emptyPropsSchema),
   ("TableCaption", childrenOnlySchema)]

/-- `schemaFor`: registry lookup. -/
def schemaFor (ty : String) : Option (List FieldSpec) :=
  (COMPONENT_PROP_SCHEMAS.find? (fun p => p.1 = ty)).map (fun p => p.2)

/-- `ALLOWED_COMPONENT_TYPES = Object.keys(COMPONENT_PROP_SCHEMAS)`. -/
def ALLOWED_COMPONENT_TYPES : List String := COMPONENT_PROP_SCHEMAS.map (fun p => p.1)

/-- A zod issue raised by a strict object parse, reduced to the two
classes the code distinguishes: the single `unrecognized_keys` issue
listing all extra keys, and a per-key invalid-value issue. -/
inductive PropIssue where
  | unrecognized (keys : List String)
  | invalid (key : String)

/-- `schema.safeParse(props)` on a strict object of optional fields:
extra keys yield one `unrecognized_keys` issue; a present field value
outside its domain yields an invalid issue; on success the sanitized
output lists the fields in shape order, present values first-hand and
absent ones filled from defaults (defaultless absent fields are
omitted). -/
def parseStrictProps (schema : List FieldSpec) (props : List (String × JValue)) :
    Except (List PropIssue) (List (String × JValue)) :=
  let extras := (props.filter (fun kv => ¬ schema.any (fun f => f.name = kv.1))).map
    (fun kv => kv.1)
  let keyIssues := schema.filterMap (fun f =>
    match lookupField props f.name with
    | some v => if f.domain v then none else some (PropIssue.invalid f.name)
    | none => none)
  let issues := (if extras.isEmpty then [] else [PropIssue.unrecognized extras]) ++ keyIssues
  if issues.isEmpty then
    .ok (schema.filterMap (fun f =>
      match lookupField props f.name with
      | some v => some (f.name, v)
      | none => f.dflt.map (fun d => (f.name, d))))
  else .error issues

/-- Has the parse failed with an error-level (non-`unrecognized_keys`)
issue?  This is the failure kind the validator records as an error. -/
def hasInvalidIssue (schema : List FieldSpec) (props : List (String × JValue)) : Bool :=
  match parseStrictProps schema props with
  | .ok _ => false
  | .error issues => issues.any (fun i =>
      match i with
      | .invalid _ => true
      | .unrecognized _ => false)

/-- Render an issue the way `validateNodeProps` does
(`${i.path.join(".")}: ${i.message}`, message text abridged). -/
def propIssueMsg : PropIssue → String
  | .unrecognized keys => ": Unrecognized key(s) in object: " ++ String.intercalate ", " keys
  | .invalid key => key ++ ": Invalid value"

/-- Result record of `validateNodeProps`. -/
structure NodePropsResult where
  valid : Bool
  sanitized : List (String × JValue)
  errors : List String

/-- `validateNodeProps`: single strict parse; on failure the RAW props
are returned as `sanitized` and every issue (the unrecognized-keys one
included) is rendered into `errors`. -/
def validateNodeProps (ty : String) (props : List (String × JValue)) : NodePropsResult :=
  match schemaFor ty with
  | none => { valid := false, sanitized := [], errors := ["Unknown component: " ++ ty] }
  | some schema =>
      match parseStrictProps schema props with
      | .ok data => { valid := true, sanitized := data, errors := [] }
      | .error issues =>
          { valid := false, sanitized := props, errors := issues.map propIssueMsg }

/-! ## Top-level document parse (`UIASTSchema.safeParse`) and
`validateUIAST`

`Except` short-circuits at the first issue whereas zod collects every
issue; only the success/failure split and the non-emptiness of the
error list matter to the verified properties, so the error lists of a
failed parse are abridged to their first entry. -/

/-- `LayoutEnum`. -/
def LayoutEnumList : List String :=
  ["Stack", "Grid", "Sidebar", "Dashboard", "Form", "Hero", "Split", "Full"]

mutual

/-- `UIASTNodeSchema` on a child position
(`z.union([z.lazy(() => UIASTNodeSchema), z.string()])`): a string
parses as a text leaf; an object parses as a node whose `type` is a
registry-known string, whose `props` default to `{}` and must be a
plain record, and whose `children` default to `[]` and must be an
array of child values. -/
def parseChildJ : JValue → Except String Child
  | .str s => .ok (.text s)
  | .obj fields =>
      (match lookupField fields "type" with
      | some (.str t) =>
          if ALLOWED_COMPONENT_TYPES.contains t then
            match lookupField fields "props" with
            | none => parseChildrenPart t [] fields
            | some (.obj pf) => parseChildrenPart t pf fields
            | some _ => .error "props: Expected record"
          else .error "Unknown component type"
      | some _ => .error "type: Expected string"
      | none => .error "type: Required")
  | _ => .error "Invalid input: expected node or string"
termination_by structural v => v

/-- The `children` part of a node parse: the first field named
`children` (i.e. `fields["children"]`, spelled as the first-match scan
so the recursion is structural) must be an array, and its absence
defaults to `[]`. -/
def parseChildrenPart (t : String) (pf : List (String × JValue)) :
    List (String × JValue) → Except String Child
  | [] => .ok (.node t pf [])
  | (k, v) :: rest =>
      if k = "children" then
        match v with
        | .arr xs =>
            (match parseChildListJ xs with
            | .ok cs => .ok (.node t pf cs)
            | .error e => .error e)
        | _ => .error "children: Expected array"
      else parseChildrenPart t pf rest
termination_by structural fs => fs

/-- Parse a `children` array element-wise (first error wins, as
`Except` short-circuits). -/
def parseChildListJ : List JValue → Except String (List Child)
  | [] => .ok []
  | x :: xs =>
      (match parseChildJ x with
      | .error e => .error e
      | .ok c =>
          match parseChildListJ xs with
          | .error e => .error e
          | .ok cs => .ok (c :: cs))
termination_by structural xs => xs

end

/-- A top-level `components` element (`z.array(UIASTNodeSchema)`):
must be a node, strings are rejected. -/
def parseNodeJ (v : JValue) : Except String Child :=
  match v with
  | .str _ => .error "Invalid input: expected node"
  | other => parseChildJ other

/-- The `components` array parse, element-wise. -/
def parseNodesList : List JValue → Except String (List Child)
  | [] => .ok []
  | x :: xs =>
      match parseNodeJ x with
      | .error e => .error e
      | .ok c =>
          match parseNodesList xs with
          | .error e => .error e
          | .ok cs => .ok (c :: cs)

/-- The `components` part of the top-level parse. -/
def parseComponentsPart (fields : List (String × JValue)) (layout theme : String) :
    Except String UIAST :=
  match lookupField fields "components" with
  | some (.arr xs) =>
      (match parseNodesList xs with
      | .ok comps => .ok { layout := layout, theme := theme, components := comps }
      | .error e => .error e)
  | some _ => .error "[components] Expected array"
  | none => .error "[components] Required"

/-- `UIASTSchema.safeParse`: required `layout` over `LayoutEnum`,
`theme` defaulting to `"light"`, required `components` array of nodes;
the plain (non-strict) object silently drops unknown top-level keys. -/
def parseUIAST (d : JValue) : Except String UIAST :=
  match d with
  | .obj fields =>
      (match lookupField fields "layout" with
      | some (.str s) =>
          if LayoutEnumList.contains s then
            match lookupField fields "theme" with
            | none => parseComponentsPart fields s "light"
            | some (.str th) =>
                if (["light", "dark"] : List String).contains th then
                  parseComponentsPart fields s th
                else .error "[theme] Invalid enum value"
            | some _ => .error "[theme] Expected string"
          else .error "[layout] Invalid enum value"
      | some _ => .error "[layout] Expected string"
      | none => .error "[layout] Required")
  | _ => .error "Expected object"

mutual

/-- The recursive `validateNode` of `validateUIAST`: per node, an
unknown type is an error; a failed prop parse splits into
unrecognized-key warnings and invalid-value errors; then the node's
non-text children are visited with extended path labels.  Returns
`(errors, warnings)` in push order. -/
def validateNodeWalk (path : String) : Child → List String × List String
  | .text _ => ([], [])
  | .node ty props children =>
      let own : List String × List String :=
        match schemaFor ty with
        | none => ([path ++ ": Unknown component \"" ++ ty ++ "\""], [])
        | some schema =>
            match parseStrictProps schema props with
            | .ok _ => ([], [])
            | .error issues =>
                (issues.filterMap (fun i =>
                    match i with
                    | .invalid k => some (path ++ ".props." ++ k ++ ": Invalid value")
                    | .unrecognized _ => none),
                 issues.filterMap (fun i =>
                    match i with
                    | .unrecognized ks =>
                        some (path ++ ".props: Unknown prop(s) " ++
                          String.intercalate ", " ks ++ " on <" ++ ty ++ "> - stripped")
                    | .invalid _ => none))
      let rest := validateChildrenWalk path 0 children
      (own.1 ++ rest.1, own.2 ++ rest.2)
termination_by structural c => c

/-- The `node.children.forEach` loop: text children are skipped but
still counted in the path index. -/
def validateChildrenWalk (path : String) (i : Nat) : List Child → List String × List String
  | [] => ([], [])
  | c :: cs =>
      let here :=
        if c.isText then ([], [])
        else validateNodeWalk (path ++ ".children[" ++ toString i ++ "]") c
      let rest := validateChildrenWalk path (i + 1) cs
      (here.1 ++ rest.1, here.2 ++ rest.2)
termination_by structural cs => cs

end

/-- The `parsed.components.forEach` loop with `components[i]` roots. -/
def validateTopWalk (i : Nat) : List Child → List String × List String
  | [] => ([], [])
  | c :: cs =>
      let here := validateNodeWalk ("components[" ++ toString i ++ "]") c
      let rest := validateTopWalk (i + 1) cs
      (here.1 ++ rest.1, here.2 ++ rest.2)

/-- Result record of `validateUIAST`. -/
structure ASTValidationResult where
  valid : Bool
  errors : List String
  warnings : List String
  sanitizedAST : Option UIAST

/-- `validateUIAST`: top-level parse first (failure returns
immediately with no validation below the root), then the recursive
per-node prop validation; `valid` is the emptiness of the error
list. -/
def validateUIAST (d : JValue) : ASTValidationResult :=
  match parseUIAST d with
  | .error e => { valid := false, errors := [e], warnings := [], sanitizedAST := none }
  | .ok ast =>
      let ew := validateTopWalk 0 ast.components
      { valid := ew.1.isEmpty, errors := ew.1, warnings := ew.2, sanitizedAST := some ast }

/-! ## String helpers shared by the generator and sandbox embeddings -/

/-- Does `pat` occur as a prefix of `s` (plain character compare)? -/
def listStartsWith : List Char → List Char → Bool
  | [], _ => true
  | _ :: _, [] => false
  | p :: ps, c :: cs => p = c && listStartsWith ps cs

/-- Split `s` around the first occurrence of `pat`, returning the part
before it and the part after it. -/
def splitAtSub (pat : List Char) : List Char → Option (List Char × List Char)
  | [] => if pat.isEmpty then some ([], []) else none
  | c :: rest =>
      if listStartsWith pat (c :: rest) then some ([], (c :: rest).drop pat.length)
      else (splitAtSub pat rest).map (fun p => (c :: p.1, p.2))

/-- JS `String.prototype.includes`. -/
def jsIncludes (s sub : String) : Bool := (splitAtSub sub.data s.data).isSome

/-- `"  ".repeat(indent)`. -/
def indentStr (n : Nat) : String := String.join (List.replicate n "  ")

/-- Whitespace for `trim` (the characters occurring in generated
code). -/
def isTrimSpace (c : Char) : Bool :=
  c = ' ' || c = '\t' || c = '\n' || c = '\r'

/-- JS `String.prototype.trim`: strip leading and trailing
whitespace. -/
def jsTrim (s : String) : String :=
  ⟨((s.data.dropWhile isTrimSpace).reverse.dropWhile isTrimSpace).reverse⟩

/-- JSON string escaping (backslash, quote and the common control
characters; exotic control characters do not occur in the verified
inputs). -/
def jsonQuoteChar (c : Char) : String :=
  if c = '\\' then "\\\\"
  else if c = '"' then "\\\""
  else if c = '\n' then "\\n"
  else if c = '\r' then "\\r"
  else if c = '\t' then "\\t"
  else String.singleton c

/-- JSON string literal. -/
def jsonQuote (s : String) : String :=
  "\"" ++ String.join (s.data.map jsonQuoteChar) ++ "\""

mutual

/-- `JSON.stringify` (compact form, as called with one argument). -/
def jsonStringify : JValue → String
  | .str s => jsonQuote s
  | .num n => toString n
  | .bool b => if b then "true" else "false"
  | .null => "null"
  | .arr xs => "[" ++ String.intercalate "," (jsonStringifyList xs) ++ "]"
  | .obj fs => "\x7b" ++ String.intercalate "," (jsonStringifyFields fs) ++ "\x7d"
termination_by structural v => v

def jsonStringifyList : List JValue → List String
  | [] => []
  | x :: xs => jsonStringify x :: jsonStringifyList xs
termination_by structural xs => xs

def jsonStringifyFields : List (String × JValue) → List String
  | [] => []
  | (k, v) :: fs => (jsonQuote k ++ ":" ++ jsonStringify v) :: jsonStringifyFields fs
termination_by structural fs => fs

end

/-! ## Code generator (`generateCodeFromAST`) -/

/-- `IMPORT_MAP`, in source insertion order. -/
def IMPORT_MAP : List (String × String) :=
  [("Button", "@/components/ui-lib/Button"),
   ("Input", "@/components/ui-lib/Input"),
   ("Card", "@/components/ui-lib/Card"),
   ("CardHeader", "@/components/ui-lib/Card"),
   ("CardTitle", "@/components/ui-lib/Card"),
   ("CardDescription", "@/components/ui-lib/Card"),
   ("CardContent", "@/components/ui-lib/Card"),
   ("CardFooter", "@/components/ui-lib/Card"),
   ("Box", "@/components/ui-lib/Layouts"),
   ("Stack", "@/components/ui-lib/Layouts"),
   ("Grid", "@/components/ui-lib/Layouts"),
   ("Container", "@/components/ui-lib/Layouts"),
   ("Heading", "@/components/ui-lib/Typography"),
   ("Text", "@/components/ui-lib/Typography"),
   ("Table", "@/components/ui-lib/Table"),
   ("TableHeader", "@/components/ui-lib/Table"),
   ("TableBody", "@/components/ui-lib/Table"),
   ("TableRow", "@/components/ui-lib/Table"),
   ("TableHead", "@/components/ui-lib/Table"),
   ("TableCell", "@/components/ui-lib/Table"),
   ("TableFooter", "@/components/ui-lib/Table"),
   ("TableCaption", "@/components/ui-lib/Table"),
   ("Modal", "@/components/ui-lib/Modal"),
   ("Navbar", "@/components/ui-lib/Navbar"),
   ("Sidebar", "@/components/ui-lib/Sidebar"),
   ("SidebarItem", "@/components/ui-lib/Sidebar"),
   ("BarChart", "@/components/ui-lib/Chart"),
   ("LineChart", "@/components/ui-lib/Chart"),
   ("PieChart", "@/components/ui-lib/Chart")]

/-- `IMPORT_MAP[comp]`. -/
def importPathFor (comp : String) : Option String :=
  (IMPORT_MAP.find? (fun p => p.1 = comp)).map (fun p => p.2)

def HANDLER_PROPS : List String := ["onClick", "onClose", "onChange"]

def RAW_VALUE_PROPS : List String :=
  ["isLoading", "isOpen", "isActive", "disabled", "columns", "level",
   "elevation", "collapsible", "defaultCollapsed", "hasDropdown", "responsive"]

def ICON_CONFLICTS : List (String × String) :=
  [("BarChart", "BarChartIcon"), ("Table", "TableIcon"),
   ("Card", "CardIcon"), ("Input", "InputIcon")]

/-- `ICON_CONFLICTS[name] || name`. -/
def iconAlias (s : String) : String :=
  ((ICON_CONFLICTS.find? (fun p => p.1 = s)).map (fun p => p.2)).getD s

/-- JS truthiness of a value (`NaN` is outside the model). -/
def truthy : JValue → Bool
  | .str s => s ≠ ""
  | .num n => n ≠ 0
  | .bool b => b
  | .null => false
  | .arr _ => true
  | .obj _ => true

/-- Truthiness of `props[k]` (absent keys are falsy `undefined`). -/
def truthyProp (props : List (String × JValue)) (k : String) : Bool :=
  ((lookupField props k).map truthy).getD false

/-- Which state scaffolding the document needs. -/
structure StateFlags where
  needsModalState : Bool
  needsSidebarCollapse : Bool
  needsNavDropdown : Bool

mutual

/-- `scanForState` on one child. -/
def scanChild (f : StateFlags) : Child → StateFlags
  | .text _ => f
  | .node ty props children =>
      let f := if ty = "Modal" then { f with needsModalState := true } else f
      let f := if ty = "Sidebar" ∧ truthyProp props "collapsible" then
        { f with needsSidebarCollapse := true } else f
      let f := if ty = "Navbar" ∧ truthyProp props "hasDropdown" then
        { f with needsNavDropdown := true } else f
      scanChildren f children
termination_by structural c => c

/-- `scanForState` over a children list. -/
def scanChildren (f : StateFlags) : List Child → StateFlags
  | [] => f
  | c :: cs => scanChildren (scanChild f c) cs
termination_by structural cs => cs

end

/-- `mapHandler`: the fixed handler-name table, defaulting to an
inline no-op (the TS code indexes the table with the raw value). -/
def mapHandler (value : JValue) : String :=
  match value with
  | .str "openModal" => "handleOpenModal"
  | .str "closeModal" => "handleCloseModal"
  | .str "toggleSidebar" => "toggleSidebar"
  | .str "toggleDropdown" => "toggleDropdown"
  | _ => "() => \x7b\x7d"

/-- String payload of a string value (only consulted under an
`isStrV` guard). -/
def strOf : JValue → String
  | .str s => s
  | _ => ""

/-- Is the value an array? -/
def isArrV : JValue → Bool
  | .arr _ => true
  | _ => false

/-- One entry of the prop-string loop of `renderNode`, following the
source's if/else-if chain (including its fall-through: an `icon` key
with a non-string value falls to the generic branches). The loop skips
`children`; values that match no branch emit nothing. -/
def propPart (key : String) (value : JValue) : Option String :=
  if HANDLER_PROPS.contains key then
    some (key ++ "=\x7b" ++ mapHandler value ++ "\x7d")
  else if key = "icon" ∧ isStrV value then
    some ("icon=\x7b<" ++ iconAlias (strOf value) ++ " className=\"h-4 w-4\" />\x7d")
  else if key = "logo" ∧ isStrV value then
    some ("logo=\x7b<" ++ iconAlias (strOf value) ++ " className=\"h-5 w-5\" />\x7d")
  else if key = "data" ∧ isArrV value then
    some ("data=\x7b" ++ jsonStringify value ++ "\x7d")
  else if RAW_VALUE_PROPS.contains key then
    some (key ++ "=\x7b" ++ jsonStringify value ++ "\x7d")
  else
    match value with
    | .str s => some (key ++ "=\"" ++ s ++ "\"")
    | .bool b => some (if b then key else key ++ "=\x7bfalse\x7d")
    | .num n => some (key ++ "=\x7b" ++ toString n ++ "\x7d")
    | _ => none

/-- `validateAndClean` of the generator: a failed prop validation
keeps the raw props and reports every issue as a generator error. -/
structure CleanResult where
  sanitized : List (String × JValue)
  errors : List String
  warnings : List String

def validateAndClean (ty : String) (props : List (String × JValue)) : CleanResult :=
  let r := validateNodeProps ty props
  if r.valid then { sanitized := r.sanitized, errors := [], warnings := [] }
  else { sanitized := props, errors := r.errors, warnings := [] }

/-- `/isOpen=\{[^}]*\}/` replacement by `isOpen={modalOpen}`: rewrite
the first `isOpen={...}` group if one closes; otherwise leave the
string unchanged (a later occurrence cannot close if the first does
not). -/
def replaceFirstIsOpen (s : String) : String :=
  match splitAtSub "isOpen=\x7b".data s.data with
  | none => s
  | some (pre, rest) =>
      match splitAtSub ['\x7d'] rest with
      | none => s
      | some (_, tail) =>
          ⟨pre⟩ ++ "isOpen=\x7bmodalOpen\x7d" ++ ⟨tail⟩

/-- The Modal-specific override: force-bind `isOpen` and append an
`onClose` when the prop string does not already contain the substring
`onClose`. -/
def modalAdjust (propsStr : String) : String :=
  let replaced := replaceFirstIsOpen propsStr
  if jsIncludes replaced "onClose" then replaced
  else replaced ++ " onClose=\x7bhandleCloseModal\x7d"

/-- Accumulated generator state (the closure-captured arrays/sets of
`generateCodeFromAST`; the sets keep first-insertion order). -/
structure GenState where
  errors : List String
  warnings : List String
  usedComponents : List String
  usedIcons : List String

/-- JS `Set.add`: keep first insertion order, ignore repeats. -/
def addUnique (l : List String) (s : String) : List String :=
  if l.contains s then l else l ++ [s]

mutual

/-- `renderNode` on one child at an indent level, threading the
generator state. -/
def renderChild (st : GenState) (indent : Nat) : Child → GenState × String
  | .text s => (st, indentStr indent ++ s)
  | .node ty props children =>
      if ¬ ALLOWED_COMPONENT_TYPES.contains ty then
        ({ st with errors := st.errors ++ ["Unknown component: " ++ ty] },
          indentStr indent ++ "\x7b/* Unknown component: " ++ ty ++ " */\x7d")
      else
        let st1 := { st with usedComponents := addUnique st.usedComponents ty }
        let vc := validateAndClean ty props
        let st2 :=
          { st1 with
            errors := st1.errors ++ vc.errors
            warnings := st1.warnings ++ vc.warnings }
        let st3 :=
          match lookupField vc.sanitized "icon" with
          | some (.str s) =>
              if s ≠ "" then { st2 with usedIcons := addUnique st2.usedIcons s } else st2
          | _ => st2
        let st4 :=
          match lookupField vc.sanitized "logo" with
          | some (.str s) =>
              if s ≠ "" then { st3 with usedIcons := addUnique st3.usedIcons s } else st3
          | _ => st3
        let propParts := vc.sanitized.filterMap (fun kv =>
          if kv.1 = "children" then none else propPart kv.1 kv.2)
        let propsStr := if propParts.isEmpty then "" else " " ++ String.intercalate " " propParts
        let finalPropsStr := if ty = "Modal" then modalAdjust propsStr else propsStr
        let pad := indentStr indent
        let strChild : List String :=
          match lookupField vc.sanitized "children" with
          | some (.str s) => if s ≠ "" then [indentStr (indent + 1) ++ s] else []
          | _ => []
        let res := renderChildren st4 (indent + 1) children
        let childContent := strChild ++ res.2
        if childContent.isEmpty then
          (res.1, pad ++ "<" ++ ty ++ finalPropsStr ++ " />")
        else
          (res.1, String.intercalate "\n"
            ([pad ++ "<" ++ ty ++ finalPropsStr ++ ">"] ++ childContent ++
              [pad ++ "</" ++ ty ++ ">"]))
termination_by structural c => c

/-- Render a children list left to right, threading state. -/
def renderChildren (st : GenState) (indent : Nat) : List Child → GenState × List String
  | [] => (st, [])
  | c :: cs =>
      let r1 := renderChild st indent c
      let r2 := renderChildren r1.1 indent cs
      (r2.1, r1.2 :: r2.2)
termination_by structural cs => cs

end

/-- JS code-unit-wise `<` on strings (default `Array.sort` compare). -/
def jsStrLtL : List Char → List Char → Bool
  | [], [] => false
  | [], _ :: _ => true
  | _ :: _, [] => false
  | a :: as_, b :: bs =>
      if a = b then jsStrLtL as_ bs else decide (a < b)

/-- Insertion sort with the JS default string order (stable; the
sorted inputs here are duplicate-free Set contents). -/
def insertSorted (x : String) : List String → List String
  | [] => [x]
  | y :: ys => if jsStrLtL x.data y.data then x :: y :: ys else y :: insertSorted x ys

def sortStrings (l : List String) : List String := l.foldr insertSorted []

/-- Insert a component into the ordered `Map<path, Set<comp>>`. -/
def addToGroups (gs : List (String × List String)) (path comp : String) :
    List (String × List String) :=
  if gs.any (fun g => g.1 = path) then
    gs.map (fun g => if g.1 = path then (g.1, addUnique g.2 comp) else g)
  else gs ++ [(path, [comp])]

/-- Group components by their import path, keeping map/set insertion
order; components without an import path are dropped. -/
def buildImportGroups (comps : List String) : List (String × List String) :=
  comps.foldl (fun gs comp =>
    match importPathFor comp with
    | some path => addToGroups gs path comp
    | none => gs) []

/-- One icon import item, with the conflict-table rename. -/
def iconImportItem (icon : String) : String :=
  match (ICON_CONFLICTS.find? (fun p => p.1 = icon)).map (fun p => p.2) with
  | some alias_ => icon ++ " as " ++ alias_
  | none => icon

/-- The generator result record. -/
structure GeneratorResult where
  code : String
  errors : List String
  warnings : List String
  usedComponents : List String
  usedIcons : List String

/-- The state/handler declaration lists derived from the pre-scan. -/
def stateDeclarations (f : StateFlags) : List String :=
  (if f.needsModalState then
    ["const [modalOpen, setModalOpen] = useState(false);"] else []) ++
  (if f.needsSidebarCollapse then
    ["const [sidebarCollapsed, setSidebarCollapsed] = useState(false);"] else []) ++
  (if f.needsNavDropdown then
    ["const [dropdownOpen, setDropdownOpen] = useState(false);"] else [])

def handlerDeclarations (f : StateFlags) : List String :=
  (if f.needsModalState then
    ["const handleOpenModal = () => setModalOpen(true);",
     "const handleCloseModal = () => setModalOpen(false);"] else []) ++
  (if f.needsSidebarCollapse then
    ["const toggleSidebar = () => setSidebarCollapsed(prev => !prev);"] else []) ++
  (if f.needsNavDropdown then
    ["const toggleDropdown = () => setDropdownOpen(prev => !prev);"] else [])

/-- The final import-group computation (`// Rebuild with Container
guaranteed`): every used component plus `Container`.  The earlier
`importLines` computation in the source is dead — the emitted code
uses only these rebuilt lines. -/
def finalImportGroupsFor (used : List String) : List (String × List String) :=
  buildImportGroups (used ++ ["Container"])

/-- The final import lines: optional `useState`, the grouped and
alphabetized component imports, then the alphabetized icon imports. -/
def finalImportLinesFor (needsState : Bool) (used icons : List String) : List String :=
  (if needsState then ["import \x7b useState \x7d from \"react\";"] else []) ++
  (finalImportGroupsFor used).map (fun g =>
    "import \x7b " ++ String.intercalate ", " (sortStrings g.2) ++ " \x7d from \"" ++
      g.1 ++ "\";") ++
  (if icons.isEmpty then [] else
    ["import \x7b " ++
      String.intercalate ", " ((sortStrings icons).map iconImportItem) ++
      " \x7d from \"lucide-react\";"])

/-- `generateCodeFromAST`. -/
def generateCodeFromAST (ast : UIAST) : GeneratorResult :=
  let flags := scanChildren ⟨false, false, false⟩ ast.components
  let sDecls := stateDeclarations flags
  let hDecls := handlerDeclarations flags
  let rendered := renderChildren ⟨[], [], [], []⟩ 2 ast.components
  let st := rendered.1
  let jsxBody := String.intercalate "\n" rendered.2
  let needsState := ¬ sDecls.isEmpty
  let finalImportLines := finalImportLinesFor needsState st.usedComponents st.usedIcons
  let stateBlock :=
    if sDecls.isEmpty then ""
    else "\n" ++ String.intercalate "\n" (sDecls.map (fun s => "  " ++ s))
  let handlerBlock :=
    if hDecls.isEmpty then ""
    else "\n" ++ String.intercalate "\n" (hDecls.map (fun h => "  " ++ h))
  let finalCode :=
    String.intercalate "\n" finalImportLines ++
    "\n\nexport default function GeneratedUI() \x7b" ++ stateBlock ++ handlerBlock ++
    "\n\n  return (\n    <Container>\n" ++ jsxBody ++
    "\n    </Container>\n  );\n\x7d\n"
  { code := jsTrim finalCode,
    errors := st.errors,
    warnings := st.warnings,
    usedComponents := st.usedComponents,
    usedIcons := st.usedIcons }

mutual

/-- All component types named by nodes of one child subtree, in
pre-order (spec-side helper for the import-set statement). -/
def typesC : Child → List String
  | .text _ => []
  | .node ty _ cs => ty :: typesL cs
termination_by structural c => c

def typesL : List Child → List String
  | [] => []
  | c :: cs => typesC c ++ typesL cs
termination_by structural cs => cs

end

/-- All component types in a document. -/
def typesInDoc (ast : UIAST) : List String := typesL ast.components

/-! ## Execution sandbox (`sandbox.ts`)

The deny-list regexes are embedded as token sequences over JS regex
semantics (`\b` word boundary, `\s` whitespace, literal runs, the
quote class of the string-`setTimeout` patterns).  `pattern.test`
asks for the existence of a match at some position, which the scanner
reproduces exactly by trying every start position.  The actual
`new Function` construction and invocation is outside a shallow
embedding; it is abstracted as an oracle (`ExecEnv`) consulted only
after every static check has passed. -/

/-- JS `\w`. -/
def isWordChar (c : Char) : Bool := c.isAlphanum || c = '_'

/-- JS `\s` (the whitespace actually occurring in source text). -/
def isJsSpace (c : Char) : Bool :=
  c = ' ' || c = '\t' || c = '\n' || c = '\r' || c = '\x0b' || c = '\x0c'

/-- One token of an embedded deny-list regex. -/
inductive RTok where
  | lit (s : String)
  | ws0
  | ws1
  | anyQuote
  | wordEnd

/-- Match the token sequence at the head of `cs`. -/
def matchSeq : List RTok → List Char → Bool
  | [], _ => true
  | .lit s :: ts, cs => listStartsWith s.data cs && matchSeq ts (cs.drop s.length)
  | .ws0 :: ts, cs => matchSeq ts (cs.dropWhile isJsSpace)
  | .ws1 :: ts, cs =>
      (match cs with
        | c :: rest => isJsSpace c && matchSeq ts (rest.dropWhile isJsSpace)
        | [] => false)
  | .anyQuote :: ts, cs =>
      (match cs with
        | c :: rest => (c = '\x27' || c = '"' || c = '\x60') && matchSeq ts rest
        | [] => false)
  | .wordEnd :: ts, cs =>
      (match cs with
        | [] => true
        | c :: _ => ¬ isWordChar c) && matchSeq ts cs

/-- Leading word boundary: every embedded pattern starts with a word
character, so `\b` holds exactly when the previous character is absent
or a non-word character. -/
def boundaryOk (needB : Bool) (prev : Option Char) : Bool :=
  if needB then
    match prev with
    | none => true
    | some p => ¬ isWordChar p
  else true

/-- Try the pattern at every position (the existence semantics of
`pattern.test`). -/
def patternFoundGo (needB : Bool) (toks : List RTok) (prev : Option Char) :
    List Char → Bool
  | [] => false
  | c :: rest =>
      (boundaryOk needB prev && matchSeq toks (c :: rest)) ||
        patternFoundGo needB toks (some c) rest

/-- Does the pattern match anywhere in `s`? -/
def patternFound (needB : Bool) (toks : List RTok) (s : String) : Bool :=
  patternFoundGo needB toks none s.data

/-- A deny-list pattern with its `pattern.source` text. -/
structure JsPattern where
  source : String
  needB : Bool
  toks : List RTok

/-- `DANGEROUS_PATTERNS`. -/
def DANGEROUS_PATTERNS : List JsPattern :=
  [⟨"\\beval\\s*\\(", true, [.lit "eval", .ws0, .lit "("]⟩,
   ⟨"\\bnew\\s+Function\\s*\\(", true, [.lit "new", .ws1, .lit "Function", .ws0, .lit "("]⟩,
   ⟨"\\bsetTimeout\\s*\\(\\s*[\x27\"\x60]", true,
     [.lit "setTimeout", .ws0, .lit "(", .ws0, .anyQuote]⟩,
   ⟨"\\bsetInterval\\s*\\(\\s*[\x27\"\x60]", true,
     [.lit "setInterval", .ws0, .lit "(", .ws0, .anyQuote]⟩,
   ⟨"\\bdocument\\s*\\.", true, [.lit "document", .ws0, .lit "."]⟩,
   ⟨"\\bwindow\\s*\\.", true, [.lit "window", .ws0, .lit "."]⟩,
   ⟨"\\bglobalThis\\s*\\.", true, [.lit "globalThis", .ws0, .lit "."]⟩,
   ⟨"\\bprocess\\s*\\.", true, [.lit "process", .ws0, .lit "."]⟩,
   ⟨"\\brequire\\s*\\(", true, [.lit "require", .ws0, .lit "("]⟩,
   ⟨"\\bimport\\s*\\(", true, [.lit "import", .ws0, .lit "("]⟩,
   ⟨"\\b__proto__\\b", true, [.lit "__proto__", .wordEnd]⟩,
   ⟨"\\bconstructor\\s*\\[", true, [.lit "constructor", .ws0, .lit "["]⟩,
   ⟨"\\bObject\\.getPrototypeOf", true, [.lit "Object.getPrototypeOf"]⟩,
   ⟨"\\bReflect\\b", true, [.lit "Reflect", .wordEnd]⟩,
   ⟨"\\bProxy\\b", true, [.lit "Proxy", .wordEnd]⟩]

/-- `LOOP_PATTERNS`. -/
def LOOP_PATTERNS : List JsPattern :=
  [⟨"while\\s*\\(\\s*true\\s*\\)", false,
     [.lit "while", .ws0, .lit "(", .ws0, .lit "true", .ws0, .lit ")"]⟩,
   ⟨"while\\s*\\(\\s*1\\s*\\)", false,
     [.lit "while", .ws0, .lit "(", .ws0, .lit "1", .ws0, .lit ")"]⟩,
   ⟨"for\\s*\\(\\s*;\\s*;\\s*\\)", false,
     [.lit "for", .ws0, .lit "(", .ws0, .lit ";", .ws0, .lit ";", .ws0, .lit ")"]⟩,
   ⟨"for\\s*\\(\\s*;;\\s*\\)", false,
     [.lit "for", .ws0, .lit "(", .ws0, .lit ";;", .ws0, .lit ")"]⟩]

/-- Does `code` contain some deny-listed pattern (dangerous construct
or literal-condition loop shape)?  This is the spec-side notion of a
string "containing a deny-listed pattern". -/
def containsDeniedPattern (code : String) : Bool :=
  (DANGEROUS_PATTERNS ++ LOOP_PATTERNS).any (fun p => patternFound p.needB p.toks code)

/-- Result record of `analyzeCode`. -/
structure AnalysisResult where
  safe : Bool
  issues : List String

/-- `analyzeCode`: collect an issue for every matching deny-list or
loop pattern; safe iff no issue. -/
def analyzeCode (code : String) : AnalysisResult :=
  let issues :=
    DANGEROUS_PATTERNS.filterMap (fun p =>
      if patternFound p.needB p.toks code then
        some ("Blocked pattern detected: " ++ p.source)
      else none) ++
    LOOP_PATTERNS.filterMap (fun p =>
      if patternFound p.needB p.toks code then
        some ("Potential infinite loop: " ++ p.source)
      else none)
  { safe := issues.isEmpty, issues := issues }

/-- `BLOCKED_GLOBALS`. -/
def BLOCKED_GLOBALS : List String :=
  ["window", "document", "globalThis", "self", "top", "parent", "frames",
   "location", "navigator", "localStorage", "sessionStorage", "indexedDB",
   "fetch", "XMLHttpRequest", "WebSocket", "Worker", "SharedWorker",
   "ServiceWorker", "importScripts", "postMessage", "opener", "chrome",
   "process", "require", "module", "exports", "__dirname", "__filename"]

/-- `createBlockedScope()`: the blocked names, each bound to
`undefined`, plus `eval`; only the key list is observable in the
embedding. -/
def createBlockedScopeNames : List String := BLOCKED_GLOBALS ++ ["eval"]

/-- Match `kw` + `\s*` + `(` + `[^)]*` + `)` + `\s*` + `{` at the head
of `cs`, returning the matched characters and the rest. -/
def matchLoopHead (kw : List Char) (cs : List Char) : Option (List Char × List Char) :=
  if listStartsWith kw cs then
    let r1 := (cs.drop kw.length).dropWhile isJsSpace
    match r1 with
    | '(' :: r2 =>
        let r3 := (r2.dropWhile (fun c => c ≠ ')'))
        match r3 with
        | ')' :: r4 =>
            let r5 := r4.dropWhile isJsSpace
            match r5 with
            | '\x7b' :: r6 => some (cs.take (cs.length - r6.length), r6)
            | _ => none
        | _ => none
    | _ => none
  else none

/-- Match `do` + `\s*` + `{`. -/
def matchDoHead (cs : List Char) : Option (List Char × List Char) :=
  if listStartsWith ['d', 'o'] cs then
    let r1 := (cs.drop 2).dropWhile isJsSpace
    match r1 with
    | '\x7b' :: r2 => some (cs.take (cs.length - r2.length), r2)
    | _ => none
  else none

/-- One global-replace pass: at each position, replace a head match by
itself followed by a newline and the guard, continue after it.  The
fuel is the character count — every step consumes at least one
character, so the initial fuel always suffices. -/
def replaceHeadsGo (matcher : List Char → Option (List Char × List Char))
    (guard : List Char) : Nat → List Char → List Char
  | 0, cs => cs
  | _ + 1, [] => []
  | fuel + 1, c :: rest =>
      match matcher (c :: rest) with
      | some (matched, after) =>
          matched ++ '\n' :: guard ++ replaceHeadsGo matcher guard fuel after
      | none => c :: replaceHeadsGo matcher guard fuel rest

/-- The loop-guard statement inserted by `injectLoopGuards`. -/
def loopGuardText : String :=
  "if (Date.now() > __deadline__) \x7b throw new Error(\"Execution timeout: loop exceeded time limit\"); \x7d\n"

/-- `injectLoopGuards`: guard every `while`, `for` and `do` opening
brace, in that order of passes. -/
def injectLoopGuards (code : String) : String :=
  let g := loopGuardText.data
  let p1 := replaceHeadsGo (matchLoopHead ['w', 'h', 'i', 'l', 'e']) g code.data.length code.data
  let p2 := replaceHeadsGo (matchLoopHead ['f', 'o', 'r']) g p1.length p1
  let p3 := replaceHeadsGo matchDoHead g p2.length p2
  ⟨p3⟩

/-- Result record of `executeSandboxed`. -/
structure SandboxResult where
  success : Bool
  result : Option JValue
  error : Option String
  executionTimeMs : Nat

/-- The JS-runtime part of `executeSandboxed` that a shallow embedding
cannot represent: constructing the callable from the guarded source
plus parameter names and invoking it, and the wall clock.  The oracle
is consulted only after the length check and the static analysis have
both passed. -/
structure ExecEnv where
  run : String → List String → Except String JValue
  elapsedMs : Nat

/-- Keys of `{ ...blockedScope, ...scope }` in JS spread order. -/
def combinedScopeNames (scope : List String) : List String :=
  createBlockedScopeNames ++ scope.filter (fun s => ¬ createBlockedScopeNames.contains s)

/-- `executeSandboxed`: length check, then static analysis, and only
then construction and invocation of the callable (the oracle). -/
def executeSandboxed (env : ExecEnv) (code : String) (scope : List String)
    (_timeoutMs maxCodeLength : Nat) : SandboxResult :=
  if code.length > maxCodeLength then
    { success := false, result := none,
      error := some ("Code exceeds maximum length (" ++ toString maxCodeLength ++ " chars)"),
      executionTimeMs := 0 }
  else
    let analysis := analyzeCode code
    if ¬ analysis.safe then
      { success := false, result := none,
        error := some ("Security violation: " ++ String.intercalate "; " analysis.issues),
        executionTimeMs := 0 }
    else
      match env.run (injectLoopGuards code) ("__deadline__" :: combinedScopeNames scope) with
      | .ok v =>
          { success := true, result := some v, error := none,
            executionTimeMs := env.elapsedMs }
      | .error msg =>
          { success := false, result := none, error := some msg,
            executionTimeMs := env.elapsedMs }

/-! ## Spec-side helper definitions -/

mutual

/-- Every node of a child subtree, the root node included, pre-order. -/
def allNodesC : Child → List Child
  | .text _ => []
  | .node ty props cs => .node ty props cs :: allNodesL cs
termination_by structural c => c

/-- Every node of a children list. -/
def allNodesL : List Child → List Child
  | [] => []
  | c :: cs => allNodesC c ++ allNodesL cs
termination_by structural cs => cs

end

/-- Every node of a document. -/
def allNodesDoc (ast : UIAST) : List Child := allNodesL ast.components

/-- Spec-side wellformedness of one node: its type is registry-known
and its properties raise no error-level (invalid-value) issue against
that schema — i.e. they satisfy the schema after default application,
with unrecognized extra keys allowed as the warning-level case. -/
def nodeSchemaOk : Child → Bool
  | .text _ => true
  | .node ty props _ =>
      match schemaFor ty with
      | none => false
      | some schema => ! hasInvalidIssue schema props

/-- All component names mentioned by an import-group list. -/
def groupsComponents (gs : List (String × List String)) : List String :=
  (gs.map (fun g => g.2)).flatten

/-- The generator state after a node's own bookkeeping (type
registration, prop validation, icon/logo collection) and before its
children render — the value of `st4` inside `renderChild`. -/
def ownStateUpdate (st : GenState) (ty : String) (props : List (String × JValue)) : GenState :=
  let st1 := { st with usedComponents := addUnique st.usedComponents ty }
  let vc := validateAndClean ty props
  let st2 :=
    { st1 with
      errors := st1.errors ++ vc.errors
      warnings := st1.warnings ++ vc.warnings }
  let st3 :=
    match lookupField vc.sanitized "icon" with
    | some (.str s) =>
        if s ≠ "" then { st2 with usedIcons := addUnique st2.usedIcons s } else st2
    | _ => st2
  match lookupField vc.sanitized "logo" with
  | some (.str s) =>
      if s ≠ "" then { st3 with usedIcons := addUnique st3.usedIcons s } else st3
  | _ => st3

/-! ## Concrete inputs used in the claim-level theorems -/

def c1TextA : Child := Child.node "Text" [("children", .str "a")] []
def c1TextB : Child := Child.node "Text" [("children", .str "b")] []
def c1Card : Child := Child.node "Card" [] [c1TextA, c1TextB]
def c1Btn : Child := Child.node "Button" [] []
def c1Doc : UIAST := { layout := "Stack", theme := "light", components := [c1Card] }
def c1AddPatch : Patch :=
  { action := "add", targetPath := "root.children[0].children[0]",
    component := some c1Btn, props := none }

def c2Btn : Child := Child.node "Button" [("variant", .str "primary"), ("foo", .str "bar")] []
def c2Doc : UIAST := { layout := "Stack", theme := "light", components := [c2Btn] }
def c2DocJ : JValue :=
  .obj [("layout", .str "Stack"), ("theme", .str "light"),
        ("components", .arr [.obj [("type", .str "Button"),
          ("props", .obj [("variant", .str "primary"), ("foo", .str "bar")]),
          ("children", .arr [])]])]

def c3GoodJ : JValue :=
  .obj [("layout", .str "Stack"), ("theme", .str "light"),
        ("components", .arr [.obj [("type", .str "Button"),
          ("props", .obj [("variant", .str "primary")]),
          ("children", .arr [.str "Click me"])]])]
def c3UnknownTypeJ : JValue :=
  .obj [("layout", .str "Stack"), ("theme", .str "light"),
        ("components", .arr [.obj [("type", .str "Widget"),
          ("props", .obj []), ("children", .arr [])]])]
def c3BadValueJ : JValue :=
  .obj [("layout", .str "Stack"), ("theme", .str "light"),
        ("components", .arr [.obj [("type", .str "Button"),
          ("props", .obj [("variant", .str "sparkly")]), ("children", .arr [])]])]

def c4Doc : UIAST :=
  { layout := "Stack", theme := "light",
    components := [Child.node "Card" []
      [Child.node "Heading" [("children", .str "Hi")] [], Child.text "x"]] }

def c5Modal : Child := Child.node "Modal" [("title", .str "onClose")] []
def c5Doc : UIAST := { layout := "Stack", theme := "light", components := [c5Modal] }
def c5DocJ : JValue :=
  .obj [("layout", .str "Stack"), ("theme", .str "light"),
        ("components", .arr [.obj [("type", .str "Modal"),
          ("props", .obj [("title", .str "onClose")]), ("children", .arr [])]])]

def c7Node : Child := Child.node "Text" [("children", .str "hello")] []
def c7Doc : UIAST := { layout := "Stack", theme := "light", components := [c7Node] }
def c7UpdPatch : Patch :=
  { action := "update", targetPath := "root.children[0]", component := none, props := none }

def c8Node : Child := Child.node "Text" [("children", .str "t")] []
def c8Doc : UIAST := { layout := "Stack", theme := "light", components := [c8Node] }
def c8Btn : Child := Child.node "Button" [] []
def c8AddPatch : Patch :=
  { action := "add", targetPath := "banana", component := some c8Btn, props := none }
def c8UpdPatch : Patch :=
  { action := "update", targetPath := "x!x.children[0]--",
    component := none, props := some [("children", .str "edited")] }

def c9Doc : UIAST :=
  { layout := "Stack", theme := "light",
    components := [Child.node "Card" [("variant", .str "ghost")] []] }
def c9Patch : Patch :=
  { action := "update", targetPath := "root.children[0]", component := none,
    props := some [("x", .num 1)] }

/-- An arbitrary concrete execution oracle, used to instantiate
sandbox statements at closed inputs. -/
def trivialExecEnv : ExecEnv := ⟨fun _ _ => .error "unused", 0⟩

/-! ## Helper lemmas -/

/-! ## Claim C1 -/

/-- C1: refuted by the code — an `add` patch addressed through two
`children[k]` steps makes `addNode` re-assign the document's
`components` from the *nested* parent's children.  On a document whose
single root component is a Card with two Text children, adding a
Button inside the Card yields a document whose root components are the
Card's three children, the Card itself vanishing from the root: the
patch is counted as applied with no error, yet the untouched
root-level structure is not preserved. -/
theorem C1_nested_add_replaces_root_components :
    (applyPatches c1Doc [c1AddPatch]).appliedPatches = 1 ∧
    (applyPatches c1Doc [c1AddPatch]).errors = [] ∧
    (applyPatches c1Doc [c1AddPatch]).ast.components = [c1TextA, c1Btn, c1TextB] ∧
    (applyPatches c1Doc [c1AddPatch]).ast.components ≠
      [Child.node "Card" [] [c1TextA, c1Btn, c1TextB]] := by
  refine ⟨rfl, rfl, rfl, ?_⟩
  intro h
  have heq : (applyPatches c1Doc [c1AddPatch]).ast.components =
      [c1TextA, c1Btn, c1TextB] := rfl
  rw [heq] at h
  simp [c1TextA, c1Btn, c1TextB] at h

/-! ## Claim C2 -/

set_option maxRecDepth 10000 in
/-- C2: refuted by the code on its generation half.  For a Button node
carrying the unknown extra key `foo`, validation indeed records only a
warning (valid stays true), but `generateCodeFromAST` does NOT strip
the extra property: `validateAndClean` falls back to the raw props on
any strict-parse failure, so `foo="bar"` is emitted into the source
and the unrecognized-key issue is recorded as a generation-level
error. -/
theorem C2_extra_prop_not_stripped_in_generation :
    (validateUIAST c2DocJ).valid = true ∧
    (validateUIAST c2DocJ).errors = [] ∧
    (validateUIAST c2DocJ).warnings =
      ["components[0].props: Unknown prop(s) foo on <Button> - stripped"] ∧
    (generateCodeFromAST c2Doc).errors = [": Unrecognized key(s) in object: foo"] ∧
    jsIncludes (generateCodeFromAST c2Doc).code "foo=\"bar\"" = true :=
  ⟨rfl, rfl, rfl, rfl, rfl⟩

/-! ## Claim C5 -/

set_option maxRecDepth 10000 in
/-- C5: the claim is right and the code is wrong.  A Modal node with
`title:"onClose"` and no `onClose` property passes validation cleanly,
yet the generated element receives NO `onClose` handler: the injection
guard tests whether the rendered prop string *contains the substring*
`onClose`, and the title's value satisfies that test.  The modal state
and handlers are declared and `isOpen` is force-bound, but the
generated modal is not closable, contrary to the documented guarantee. -/
theorem C5_modal_close_handler_not_injected :
    (validateUIAST c5DocJ).valid = true ∧
    (validateUIAST c5DocJ).errors = [] ∧
    (validateUIAST c5DocJ).warnings = [] ∧
    (generateCodeFromAST c5Doc).code = String.intercalate "\n"
      ["import \x7b useState \x7d from \"react\";",
       "import \x7b Modal \x7d from \"@/components/ui-lib/Modal\";",
       "import \x7b Container \x7d from \"@/components/ui-lib/Layouts\";",
       "",
       "export default function GeneratedUI() \x7b",
       "  const [modalOpen, setModalOpen] = useState(false);",
       "  const handleOpenModal = () => setModalOpen(true);",
       "  const handleCloseModal = () => setModalOpen(false);",
       "",
       "  return (",
       "    <Container>",
       "    <Modal isOpen=\x7bmodalOpen\x7d title=\"onClose\" variant=\"primary\" elevation=\x7b2\x7d animation=\"fade\" />",
       "    </Container>",
       "  );",
       "\x7d"] ∧
    jsIncludes (generateCodeFromAST c5Doc).code "onClose=" = false :=
  ⟨rfl, rfl, rfl, rfl, rfl⟩

/-! ## Claim C7: counterexample -/

/-- C7 counterexample: an `update` patch with neither a replacement
component nor a props mapping is NOT treated as a per-patch failure:
on a one-node document it applies as a silent no-op — no error entry,
counted in `appliedPatches`, success true — contradicting the claim
that a missing required payload contributes an error and is not
counted. -/
theorem C7_counterexample_update_without_payload :
    (applyPatches c7Doc [c7UpdPatch]).success = true ∧
    (applyPatches c7Doc [c7UpdPatch]).appliedPatches = 1 ∧
    (applyPatches c7Doc [c7UpdPatch]).errors = [] ∧
    (applyPatches c7Doc [c7UpdPatch]).ast = c7Doc :=
  ⟨rfl, rfl, rfl, rfl⟩

/-! ## Claim C8: counterexample -/

/-- C8 counterexample: target paths outside the documented grammar are
not rejected.  An `add` with path `banana` (no `children[k]` segment,
not `root`) appends at the root with success and no error, and an
`update` with the malformed path `x!x.children[0]--` resolves (the
engine merely extracts `children[k]` substrings) and modifies the
node — contradicting the claim that such paths produce an addressing
error and leave the document unchanged for all three actions. -/
theorem C8_counterexample_malformed_paths_accepted :
    (applyPatches c8Doc [c8AddPatch]).success = true ∧
    (applyPatches c8Doc [c8AddPatch]).errors = [] ∧
    (applyPatches c8Doc [c8AddPatch]).ast.components = [c8Node, c8Btn] ∧
    (applyPatches c8Doc [c8UpdPatch]).success = true ∧
    (applyPatches c8Doc [c8UpdPatch]).ast.components =
      [Child.node "Text" [("children", .str "edited")] []] :=
  ⟨rfl, rfl, rfl, rfl, rfl⟩

/-! ## Claim C10 -/

/-- C10: `generateCodeFromAST` is deterministic — the embedding is a
pure function of the document alone (the source reads no clock,
randomness, locale or cross-call state), so structurally equal
documents produce identical code, errors, warnings, usedComponents and
usedIcons. -/
theorem C10_generator_deterministic (a b : UIAST) (h : a = b) :
    generateCodeFromAST a = generateCodeFromAST b := by rw [h]

/-- C10 witness: the determinism theorem applied at a concrete
document. -/
theorem C10_generator_deterministic_witness :
    c4Doc = c4Doc ∧ generateCodeFromAST c4Doc = generateCodeFromAST c4Doc :=
  ⟨rfl, C10_generator_deterministic c4Doc c4Doc rfl⟩

/-! ## Claim C6 -/

/-- A matching dangerous pattern contributes its named issue. -/
theorem mem_issues_of_dangerous (code : String) (p : JsPattern)
    (hp : p ∈ DANGEROUS_PATTERNS) (hf : patternFound p.needB p.toks code = true) :
    ("Blocked pattern detected: " ++ p.source) ∈ (analyzeCode code).issues := by
  simp only [analyzeCode]
  refine List.mem_append.mpr (Or.inl (List.mem_filterMap.mpr ⟨p, hp, ?_⟩))
  simp [hf]

/-- A matching loop pattern contributes its named issue. -/
theorem mem_issues_of_loop (code : String) (p : JsPattern)
    (hp : p ∈ LOOP_PATTERNS) (hf : patternFound p.needB p.toks code = true) :
    ("Potential infinite loop: " ++ p.source) ∈ (analyzeCode code).issues := by
  simp only [analyzeCode]
  refine List.mem_append.mpr (Or.inr (List.mem_filterMap.mpr ⟨p, hp, ?_⟩))
  simp [hf]

/-- C6: for every source string containing a deny-listed pattern (a
dangerous construct or a literal-condition unbounded loop shape),
`analyzeCode` is unsafe with a non-empty issue list in which every
matching pattern is named, and `executeSandboxed` returns a failure
whose value does not depend on the execution oracle at all — the
callable is never constructed or invoked. -/
theorem C6_denied_pattern_blocks_execution (code : String)
    (h : containsDeniedPattern code = true) :
    (analyzeCode code).safe = false ∧
    (analyzeCode code).issues ≠ [] ∧
    (∀ p ∈ DANGEROUS_PATTERNS, patternFound p.needB p.toks code = true →
      ("Blocked pattern detected: " ++ p.source) ∈ (analyzeCode code).issues) ∧
    (∀ p ∈ LOOP_PATTERNS, patternFound p.needB p.toks code = true →
      ("Potential infinite loop: " ++ p.source) ∈ (analyzeCode code).issues) ∧
    (∀ env scope t m, (executeSandboxed env code scope t m).success = false) ∧
    (∀ env₁ env₂ scope t m,
      executeSandboxed env₁ code scope t m = executeSandboxed env₂ code scope t m) := by
  have hex : (∃ p ∈ DANGEROUS_PATTERNS, patternFound p.needB p.toks code = true) ∨
      ∃ p ∈ LOOP_PATTERNS, patternFound p.needB p.toks code = true := by
    simpa [containsDeniedPattern, List.any_eq_true] using h
  have hne : (analyzeCode code).issues ≠ [] := by
    rcases hex with ⟨p, hp, hf⟩ | ⟨p, hp, hf⟩
    · exact List.ne_nil_of_mem (mem_issues_of_dangerous code p hp hf)
    · exact List.ne_nil_of_mem (mem_issues_of_loop code p hp hf)
  have hsafe : (analyzeCode code).safe = false := by
    have : (analyzeCode code).safe = (analyzeCode code).issues.isEmpty := rfl
    rw [this]
    cases hi : (analyzeCode code).issues with
    | nil => exact (hne hi).elim
    | cons a l => rfl
  refine ⟨hsafe, hne,
    fun p hp hf => mem_issues_of_dangerous code p hp hf,
    fun p hp hf => mem_issues_of_loop code p hp hf, ?_, ?_⟩
  · intro env scope t m
    by_cases hlen : code.length > m <;> simp [executeSandboxed, hlen, hsafe]
  · intro env₁ env₂ scope t m
    by_cases hlen : code.length > m <;> simp [executeSandboxed, hlen, hsafe]

/-- C6 witness: the theorem applied to `eval(userInput)` with a
concrete oracle. -/
theorem C6_denied_pattern_blocks_execution_witness :
    containsDeniedPattern "eval(userInput)" = true ∧
    (analyzeCode "eval(userInput)").safe = false ∧
    (executeSandboxed trivialExecEnv "eval(userInput)" [] 5000 100000).success = false :=
  ⟨by decide,
   (C6_denied_pattern_blocks_execution "eval(userInput)" (by decide)).1,
   (C6_denied_pattern_blocks_execution "eval(userInput)"
      (by decide)).2.2.2.2.1 trivialExecEnv [] 5000 100000⟩

/-! ## Claim C7: amended -/

/-- Setting an index to the element it already holds is the
identity. -/
theorem set_of_getElem?_eq {α : Type} (l : List α) (n : Nat) (a : α)
    (h : l[n]? = some a) : l.set n a = l := by
  induction l generalizing n with
  | nil => simp at h
  | cons x xs ih =>
      cases n with
      | zero => simp at h; simp [h]
      | succ m => simp at h; simp [List.set, ih m h]

/-- A payload-free update edit leaves the navigated children
unchanged. -/
theorem navModify_update_none_noop (T : String) (rest : List Nat) :
    ∀ (i s : Nat) (cs : List Child) (pr : List Child × List Child),
      navModify (updateAct T none none) i cs s rest = .ok pr → pr.1 = cs := by
  induction rest with
  | nil =>
      intro i s cs pr h
      cases hg : cs[s]? with
      | none => simp [navModify, updateAct, hg, Except.map] at h
      | some c =>
          cases c with
          | text str => simp [navModify, updateAct, hg, Except.map] at h
          | node ty p ch =>
              simp [navModify, updateAct, hg, Except.map] at h
              simp [← h]
  | cons next more ih =>
      intro i s cs pr h
      cases hg : cs[s]? with
      | none => simp [navModify, hg] at h
      | some c =>
          cases c with
          | text str => simp [navModify, hg] at h
          | node ty p ch =>
              simp only [navModify, List.get?_eq_getElem?, hg] at h
              cases hrec : navModify (updateAct T none none) (i + 1) ch next more with
              | error e => rw [hrec] at h; simp [Except.bind] at h
              | ok pr2 =>
                  rw [hrec] at h
                  simp [Except.bind, Except.map] at h
                  have h2 : pr2.1 = ch := ih (i + 1) next ch pr2 hrec
                  rw [← h]
                  simp [h2, set_of_getElem?_eq cs s _ hg]

/-- Incrementing the applied-count accumulator shifts only the
`appliedPatches` field of the final result. -/
theorem applyPatchesGo_applied_succ (ps : List Patch) :
    ∀ (cur : UIAST) (errs : List String) (n : Nat),
      (applyPatchesGo cur errs (n + 1) ps).success = (applyPatchesGo cur errs n ps).success ∧
      (applyPatchesGo cur errs (n + 1) ps).ast = (applyPatchesGo cur errs n ps).ast ∧
      (applyPatchesGo cur errs (n + 1) ps).errors = (applyPatchesGo cur errs n ps).errors ∧
      (applyPatchesGo cur errs (n + 1) ps).appliedPatches =
        (applyPatchesGo cur errs n ps).appliedPatches + 1 := by
  induction ps with
  | nil => intro cur errs n; exact ⟨rfl, rfl, rfl, rfl⟩
  | cons p rest ih =>
      intro cur errs n
      cases h : applySinglePatch cur p with
      | ok next => simpa [applyPatchesGo, h] using ih next errs (n + 1)
      | error msg =>
          simpa [applyPatchesGo, h] using
            ih cur (errs ++ ["Patch \"" ++ p.action ++ "\" at \"" ++ p.targetPath ++ "\": " ++ msg]) n

/-- C7 amended: a patch with a missing required payload is NOT a
per-patch failure.  An `update` patch carrying neither a replacement
component nor a props mapping applies as a silent no-op whenever its
path resolves to a non-text node: it contributes no error, IS counted
in `appliedPatches`, leaves the working document unchanged, and
processing continues with the rest of the batch exactly as if the
batch had started after it (with the counter one higher).  (The `add`
patch with a missing component likewise does not fail; it pushes the
JS `undefined` into the children array, which lies outside the typed
embedding.) -/
theorem C7_amended_payload_free_update_is_counted_noop (ast : UIAST) (T : String)
    (ps : List Patch) (d : UIAST) (h : updateNode ast T none none = Except.ok d) :
    d = ast ∧
    (applyPatches ast [⟨"update", T, none, none⟩]).success = true ∧
    (applyPatches ast [⟨"update", T, none, none⟩]).appliedPatches = 1 ∧
    (applyPatches ast [⟨"update", T, none, none⟩]).errors = [] ∧
    (applyPatches ast [⟨"update", T, none, none⟩]).ast = ast ∧
    (applyPatches ast (⟨"update", T, none, none⟩ :: ps)).ast = (applyPatches ast ps).ast ∧
    (applyPatches ast (⟨"update", T, none, none⟩ :: ps)).errors =
      (applyPatches ast ps).errors ∧
    (applyPatches ast (⟨"update", T, none, none⟩ :: ps)).appliedPatches =
      (applyPatches ast ps).appliedPatches + 1 := by
  have hd : d = ast := by
    unfold updateNode at h
    cases hp : parsePath T with
    | nil => rw [hp] at h; simp at h
    | cons s0 rest =>
        simp only [hp] at h
        cases hnav : navModify (updateAct T none none) 0 ast.components s0 rest with
        | error e => rw [hnav] at h; simp [Except.bind] at h
        | ok pr =>
            rw [hnav] at h
            simp [Except.bind] at h
            have : pr.1 = ast.components := navModify_update_none_noop T rest 0 s0 ast.components pr hnav
            rw [← h, this]
  have hsingle : applySinglePatch ast ⟨"update", T, none, none⟩ = Except.ok ast := by
    simp [applySinglePatch, h, hd]
  have hshift := applyPatchesGo_applied_succ ps ast [] 0
  refine ⟨hd, ?_, ?_, ?_, ?_, ?_, ?_, ?_⟩ <;>
    simp [applyPatches, applyPatchesGo, hsingle, hshift.1, hshift.2.1, hshift.2.2.1,
      hshift.2.2.2]

/-- C7 amended witness: the no-op update on a concrete one-node
document. -/
theorem C7_amended_payload_free_update_witness :
    updateNode c7Doc "root.children[0]" none none = Except.ok c7Doc ∧
    (applyPatches c7Doc [⟨"update", "root.children[0]", none, none⟩]).appliedPatches = 1 ∧
    (applyPatches c7Doc [⟨"update", "root.children[0]", none, none⟩]).errors = [] :=
  ⟨rfl,
   (C7_amended_payload_free_update_is_counted_noop c7Doc "root.children[0]" [] c7Doc rfl).2.2.1,
   (C7_amended_payload_free_update_is_counted_noop c7Doc "root.children[0]" [] c7Doc rfl).2.2.2.1⟩

/-! ## Claim C8: amended -/

/-- C8 amended: the engine does not validate path syntax; it extracts
every `children[<digits>]` substring and ignores all surrounding text.
A target path containing no such substring is treated as the root for
all three actions: an `add` appends its component to the top-level
components with success and no error, while `update` and `remove`
report the `Invalid target path` addressing error and leave the
document unchanged, the batch continuing. -/
theorem C8_amended_segmentless_path_acts_as_root (ast : UIAST) (T : String) (c : Child)
    (comp : Option Child) (props : Option (List (String × JValue)))
    (h : parsePath T = []) :
    (applyPatches ast [⟨"add", T, some c, none⟩]).success = true ∧
    (applyPatches ast [⟨"add", T, some c, none⟩]).errors = [] ∧
    (applyPatches ast [⟨"add", T, some c, none⟩]).ast.components = ast.components ++ [c] ∧
    (applyPatches ast [⟨"update", T, comp, props⟩]).success = false ∧
    (applyPatches ast [⟨"update", T, comp, props⟩]).ast = ast ∧
    (applyPatches ast [⟨"update", T, comp, props⟩]).errors =
      ["Patch \"update\" at \"" ++ T ++ "\": " ++ ("Invalid target path: \"" ++ T ++ "\"")] ∧
    (applyPatches ast [⟨"remove", T, none, none⟩]).success = false ∧
    (applyPatches ast [⟨"remove", T, none, none⟩]).ast = ast ∧
    (applyPatches ast [⟨"remove", T, none, none⟩]).errors =
      ["Patch \"remove\" at \"" ++ T ++ "\": " ++ ("Invalid target path: \"" ++ T ++ "\"")] := by
  refine ⟨?_, ?_, ?_, ?_, ?_, ?_, ?_, ?_, ?_⟩ <;>
    simp [applyPatches, applyPatchesGo, applySinglePatch, addNode, updateNode,
      removeNode, h, String.append_assoc]

/-- C8 amended witness: the segmentless path `banana` on a concrete
document. -/
theorem C8_amended_segmentless_path_witness :
    parsePath "banana" = [] ∧
    (applyPatches c8Doc [⟨"add", "banana", some c8Btn, none⟩]).ast.components =
      c8Doc.components ++ [c8Btn] ∧
    (applyPatches c8Doc [⟨"remove", "banana", none, none⟩]).success = false :=
  ⟨rfl,
   (C8_amended_segmentless_path_acts_as_root c8Doc "banana" c8Btn none none rfl).2.2.1,
   (C8_amended_segmentless_path_acts_as_root c8Doc "banana" c8Btn none none rfl).2.2.2.2.2.2.1⟩

/-! ## Claim C9 -/
theorem getElem?_set_self_of_lt {α : Type} (l : List α) (n : Nat) (a : α)
    (h : n < l.length) : (l.set n a)[n]? = some a := by
  rw [List.getElem?_set_self]
  simp [List.getElem?_eq_getElem, h]

theorem lookupField_of_mem_nodup (P : List (String × JValue)) (k : String) (v : JValue)
    (hnd : (P.map Prod.fst).Nodup) (hm : (k, v) ∈ P) :
    lookupField P k = some v := by
  induction P with
  | nil => simp at hm
  | cons kv rest ih =>
      obtain ⟨k0, v0⟩ := kv
      rw [List.map_cons] at hnd
      have hnd' := List.nodup_cons.mp hnd
      rcases List.mem_cons.mp hm with heq | hrest
      · cases heq
        simp [lookupField, List.find?]
      · have hk0 : k0 ≠ k := by
          intro hk
          exact hnd'.1 (hk ▸ List.mem_map.mpr ⟨(k, v), hrest, rfl⟩)
        have := ih hnd'.2 hrest
        simpa [lookupField, List.find?, hk0] using this

theorem map_eq_self_of_fixed {α : Type} (f : α → α) :
    ∀ (l : List α), (∀ x ∈ l, f x = x) → l.map f = l
  | [], _ => rfl
  | x :: xs, h => by
      simp only [List.map]
      rw [h x (by simp), map_eq_self_of_fixed f xs (fun y hy => h y (by simp [hy]))]

theorem jsSpreadMerge_idem (old P : List (String × JValue))
    (hnd : (P.map Prod.fst).Nodup) :
    jsSpreadMerge (jsSpreadMerge old P) P = jsSpreadMerge old P := by
  unfold jsSpreadMerge
  have hA : (old.map (fun kv => (kv.1, (lookupField P kv.1).getD kv.2))).map
      (fun kv => (kv.1, (lookupField P kv.1).getD kv.2)) =
      old.map (fun kv => (kv.1, (lookupField P kv.1).getD kv.2)) := by
    rw [List.map_map]
    apply List.map_congr_left
    intro kv _
    simp only [Function.comp]
    cases hl : lookupField P kv.1 <;> simp [hl]
  have hB : (P.filter (fun kv => ¬ old.any (fun kv2 => kv2.1 = kv.1))).map
      (fun kv => (kv.1, (lookupField P kv.1).getD kv.2)) =
      P.filter (fun kv => ¬ old.any (fun kv2 => kv2.1 = kv.1)) := by
    apply map_eq_self_of_fixed
    intro kv hkv
    have hmem : kv ∈ P := List.mem_of_mem_filter hkv
    have : lookupField P kv.1 = some kv.2 :=
      lookupField_of_mem_nodup P kv.1 kv.2 hnd (by simpa using hmem)
    simp [this]
  have hC : P.filter (fun kv =>
      ¬ (old.map (fun kv => (kv.1, (lookupField P kv.1).getD kv.2)) ++
        P.filter (fun kv => ¬ old.any (fun kv2 => kv2.1 = kv.1))).any
          (fun kv2 => kv2.1 = kv.1)) = [] := by
    apply List.filter_eq_nil_iff.mpr
    intro kv hkv
    simp only [List.any_append, List.any_map, Bool.not_eq_true, decide_not,
      Bool.not_eq_false, Bool.or_eq_true, List.any_eq_true, decide_eq_true_eq,
      Bool.not_eq_false', decide_eq_true_eq, Function.comp]
    by_cases hold : ∃ kv0 ∈ old, kv0.1 = kv.1
    · obtain ⟨kv0, hkv0, hk⟩ := hold
      exact Or.inl ⟨kv0, hkv0, by simp [hk]⟩
    · exact Or.inr ⟨kv, List.mem_filter.mpr ⟨hkv, by simpa using hold⟩, rfl⟩
  rw [List.map_append, hA, hB, hC]
  simp

theorem navModify_merge_idem (T : String) (P : List (String × JValue))
    (hnd : (P.map Prod.fst).Nodup) (rest : List Nat) :
    ∀ (i s : Nat) (cs : List Child) (pr : List Child × List Child),
      navModify (updateAct T none (some P)) i cs s rest = .ok pr →
      ∃ pr2, navModify (updateAct T none (some P)) i pr.1 s rest = .ok pr2 ∧
        pr2.1 = pr.1 := by
  induction rest with
  | nil =>
      intro i s cs pr h
      cases hg : cs[s]? with
      | none => simp [navModify, updateAct, hg, Except.map] at h
      | some c =>
          cases c with
          | text str => simp [navModify, updateAct, hg, Except.map] at h
          | node ty p ch =>
              simp [navModify, updateAct, hg, Except.map] at h
              have hlt : s < cs.length := (List.getElem?_eq_some_iff.mp hg).1
              have hg2 : pr.1[s]? = some (Child.node ty (jsSpreadMerge p P) ch) := by
                rw [← h]
                exact getElem?_set_self_of_lt _ s _ hlt
              refine ⟨(pr.1.set s (Child.node ty (jsSpreadMerge (jsSpreadMerge p P) P) ch),
                pr.1.set s (Child.node ty (jsSpreadMerge (jsSpreadMerge p P) P) ch)),
                ?_, ?_⟩
              · simp [navModify, updateAct, hg2, Except.map]
              · rw [jsSpreadMerge_idem p P hnd, ← h, List.set_set]
  | cons next more ih =>
      intro i s cs pr h
      cases hg : cs[s]? with
      | none => simp [navModify, hg] at h
      | some c =>
          cases c with
          | text str => simp [navModify, hg] at h
          | node ty p ch =>
              simp only [navModify, List.get?_eq_getElem?, hg] at h
              cases hrec : navModify (updateAct T none (some P)) (i + 1) ch next more with
              | error e => rw [hrec] at h; simp [Except.bind] at h
              | ok w =>
                  rw [hrec] at h
                  simp [Except.bind, Except.map] at h
                  obtain ⟨w2, hw2, hw2eq⟩ := ih (i + 1) next ch w hrec
                  have hlt : s < cs.length := (List.getElem?_eq_some_iff.mp hg).1
                  have hg2 : pr.1[s]? = some (Child.node ty p w.1) := by
                    rw [← h]
                    exact getElem?_set_self_of_lt _ s _ hlt
                  refine ⟨(pr.1.set s (Child.node ty p w2.1), w2.2), ?_, ?_⟩
                  · simp only [navModify, List.get?_eq_getElem?, hg2, hw2, Except.bind]
                    rfl
                  · rw [hw2eq, ← h, List.set_set]

/-- C9: update-by-prop-merge is idempotent.  If an update patch whose
payload is a (duplicate-key-free, as every JS object is) props mapping
resolves to a non-text node, applying it twice in sequence yields the
same document as applying it once: the second application re-navigates
to the same node and the JS shallow spread merge absorbs itself. -/
theorem C9_update_prop_merge_idempotent (ast : UIAST) (T : String)
    (P : List (String × JValue)) (d : UIAST)
    (hnd : (P.map Prod.fst).Nodup)
    (h : updateNode ast T none (some P) = Except.ok d) :
    updateNode d T none (some P) = Except.ok d ∧
    (applyPatches ast [⟨"update", T, none, some P⟩, ⟨"update", T, none, some P⟩]).ast =
      (applyPatches ast [⟨"update", T, none, some P⟩]).ast ∧
    (applyPatches ast [⟨"update", T, none, some P⟩, ⟨"update", T, none, some P⟩]).success
      = true ∧
    (applyPatches ast [⟨"update", T, none, some P⟩]).ast = d := by
  have hidem : updateNode d T none (some P) = Except.ok d := by
    unfold updateNode at h ⊢
    cases hp : parsePath T with
    | nil => rw [hp] at h; simp at h
    | cons s0 rest =>
        simp only [hp] at h ⊢
        cases hnav : navModify (updateAct T none (some P)) 0 ast.components s0 rest with
        | error e => rw [hnav] at h; simp [Except.bind] at h
        | ok pr =>
            rw [hnav] at h
            simp [Except.bind] at h
            obtain ⟨pr2, hpr2, hpr2eq⟩ :=
              navModify_merge_idem T P hnd rest 0 s0 ast.components pr hnav
            subst h
            simp only [hpr2, Except.bind]
            show (Except.ok { layout := ast.layout, theme := ast.theme, components := pr2.1 } :
                Except String UIAST) =
              Except.ok { layout := ast.layout, theme := ast.theme, components := pr.1 }
            rw [hpr2eq]
  have hsingle : applySinglePatch ast ⟨"update", T, none, some P⟩ = Except.ok d := by
    simp [applySinglePatch, h]
  have hsingle2 : applySinglePatch d ⟨"update", T, none, some P⟩ = Except.ok d := by
    simp [applySinglePatch, hidem]
  refine ⟨hidem, ?_, ?_, ?_⟩ <;>
    simp [applyPatches, applyPatchesGo, hsingle, hsingle2]

/-- C9 witness: the merge-update applied twice on a concrete
document. -/
theorem C9_update_prop_merge_idempotent_witness :
    ((([("x", JValue.num 1)] : List (String × JValue)).map Prod.fst).Nodup) ∧
    updateNode c9Doc "root.children[0]" none (some [("x", JValue.num 1)]) =
      Except.ok ⟨"Stack", "light",
        [Child.node "Card" [("variant", .str "ghost"), ("x", .num 1)] []]⟩ ∧
    (applyPatches c9Doc [c9Patch, c9Patch]).ast = (applyPatches c9Doc [c9Patch]).ast := by
  refine ⟨by simp, rfl, ?_⟩
  exact (C9_update_prop_merge_idempotent c9Doc "root.children[0]" [("x", JValue.num 1)]
    ⟨"Stack", "light",
      [Child.node "Card" [("variant", .str "ghost"), ("x", .num 1)] []]⟩
    (by simp) rfl).2.1

/-! ## Claim C4 -/


theorem childInduction (P : Child → Prop)
    (htext : ∀ s, P (.text s))
    (hnode : ∀ ty props cs, (∀ c ∈ cs, P c) → P (.node ty props cs)) :
    ∀ c, P c
  | .text s => htext s
  | .node ty props cs => hnode ty props cs (fun c hc => childInduction P htext hnode c)
termination_by c => sizeOf c
decreasing_by
  have := List.sizeOf_lt_of_mem hc
  simp only [Child.node.sizeOf_spec]
  omega

theorem addUnique_mem (l : List String) (s t : String) :
    t ∈ addUnique l s ↔ (t ∈ l ∨ t = s) := by
  unfold addUnique
  split
  · rename_i hc
    constructor
    · exact Or.inl
    · rintro (h | rfl)
      · exact h
      · simpa using hc
  · simp

theorem renderChild_state_of_allowed (st : GenState) (indent : Nat) (ty : String)
    (props : List (String × JValue)) (cs : List Child)
    (hty : ALLOWED_COMPONENT_TYPES.contains ty = true) :
    (renderChild st indent (.node ty props cs)).1 =
      (renderChildren (ownStateUpdate st ty props) (indent + 1) cs).1 := by
  simp only [renderChild, ownStateUpdate, hty, not_true, Bool.not_eq_true,
    Bool.false_eq_true, if_false, reduceCtorEq, ite_false]
  split <;> rfl

theorem ownStateUpdate_usedComponents (st : GenState) (ty : String)
    (props : List (String × JValue)) :
    (ownStateUpdate st ty props).usedComponents = addUnique st.usedComponents ty := by
  simp only [ownStateUpdate]
  split <;> (try split) <;> (try (split <;> try split)) <;> rfl
theorem renderChildren_usedComponents (cs : List Child)
    (hP : ∀ c ∈ cs, ∀ (st : GenState) (indent : Nat),
      (∀ t ∈ typesC c, t ∈ ALLOWED_COMPONENT_TYPES) →
      ∀ t, t ∈ (renderChild st indent c).1.usedComponents ↔
        (t ∈ st.usedComponents ∨ t ∈ typesC c)) :
    ∀ (st : GenState) (indent : Nat),
      (∀ t ∈ typesL cs, t ∈ ALLOWED_COMPONENT_TYPES) →
      ∀ t, t ∈ (renderChildren st indent cs).1.usedComponents ↔
        (t ∈ st.usedComponents ∨ t ∈ typesL cs) := by
  induction cs with
  | nil => intro st indent _ t; simp [renderChildren, typesL]
  | cons c rest ih =>
      intro st indent hall t
      have hallc : ∀ t ∈ typesC c, t ∈ ALLOWED_COMPONENT_TYPES := fun t ht =>
        hall t (by simp [typesL, ht])
      have hallrest : ∀ t ∈ typesL rest, t ∈ ALLOWED_COMPONENT_TYPES := fun t ht =>
        hall t (by simp [typesL, ht])
      have hc := hP c (by simp) st indent hallc
      have hrest := ih (fun c' hc' => hP c' (by simp [hc'])) (renderChild st indent c).1
        indent hallrest
      simp only [renderChildren]
      rw [hrest t, hc t]
      simp [typesL, or_assoc]

theorem renderChild_usedComponents :
    ∀ (c : Child) (st : GenState) (indent : Nat),
      (∀ t ∈ typesC c, t ∈ ALLOWED_COMPONENT_TYPES) →
      ∀ t, t ∈ (renderChild st indent c).1.usedComponents ↔
        (t ∈ st.usedComponents ∨ t ∈ typesC c) := by
  intro c
  induction c using childInduction with
  | htext s => intro st indent _ t; simp [renderChild, typesC]
  | hnode ty props cs ihc =>
      intro st indent hall t
      have hty : ALLOWED_COMPONENT_TYPES.contains ty = true := by
        have : ty ∈ ALLOWED_COMPONENT_TYPES := hall ty (by simp [typesC])
        simpa using this
      rw [renderChild_state_of_allowed st indent ty props cs hty]
      have hallcs : ∀ t ∈ typesL cs, t ∈ ALLOWED_COMPONENT_TYPES := fun t ht =>
        hall t (by simp [typesC, ht])
      have hP : ∀ c' ∈ cs, ∀ (st : GenState) (indent : Nat),
          (∀ t ∈ typesC c', t ∈ ALLOWED_COMPONENT_TYPES) →
          ∀ t, t ∈ (renderChild st indent c').1.usedComponents ↔
            (t ∈ st.usedComponents ∨ t ∈ typesC c') := fun c' hc' => ihc c' hc'
      rw [renderChildren_usedComponents cs hP (ownStateUpdate st ty props) (indent + 1)
        hallcs t]
      rw [show (ownStateUpdate st ty props).usedComponents =
        addUnique st.usedComponents ty from ownStateUpdate_usedComponents st ty props]
      rw [addUnique_mem]
      simp [typesC]
      tauto
theorem groupsComponents_mem (gs : List (String × List String)) (t : String) :
    t ∈ groupsComponents gs ↔ ∃ g ∈ gs, t ∈ g.2 := by
  simp only [groupsComponents, List.mem_flatten, List.mem_map]
  constructor
  · rintro ⟨l, ⟨g, hg, rfl⟩, ht⟩
    exact ⟨g, hg, ht⟩
  · rintro ⟨g, hg, ht⟩
    exact ⟨g.2, ⟨g, hg, rfl⟩, ht⟩

theorem addToGroups_mem (gs : List (String × List String)) (path comp t : String) :
    t ∈ groupsComponents (addToGroups gs path comp) ↔
      (t ∈ groupsComponents gs ∨ t = comp) := by
  unfold addToGroups
  split
  · rename_i hany
    rw [groupsComponents_mem, groupsComponents_mem]
    constructor
    · rintro ⟨g', hg', ht⟩
      rcases List.mem_map.mp hg' with ⟨g, hg, rfl⟩
      by_cases hp : g.1 = path
      · simp only [hp, if_pos rfl] at ht
        rcases (addUnique_mem g.2 comp t).mp (by simpa [hp] using ht) with h | h
        · exact Or.inl ⟨g, hg, h⟩
        · exact Or.inr h
      · simp only [if_neg hp] at ht
        exact Or.inl ⟨g, hg, by simpa [hp] using ht⟩
    · rintro (⟨g, hg, ht⟩ | rfl)
      · by_cases hp : g.1 = path
        · refine ⟨(g.1, addUnique g.2 comp), List.mem_map.mpr ⟨g, hg, by simp [hp]⟩, ?_⟩
          exact (addUnique_mem g.2 comp t).mpr (Or.inl ht)
        · exact ⟨g, List.mem_map.mpr ⟨g, hg, by simp [hp]⟩, ht⟩
      · have hex : ∃ b, (path, b) ∈ gs := by simpa using hany
        obtain ⟨b0, hb0⟩ := hex
        refine ⟨(path, addUnique b0 t), List.mem_map.mpr ⟨(path, b0), hb0, by simp⟩, ?_⟩
        exact (addUnique_mem b0 t t).mpr (Or.inr rfl)
  · rw [groupsComponents_mem, groupsComponents_mem]
    constructor
    · rintro ⟨g, hg, ht⟩
      rcases List.mem_append.mp hg with h | h
      · exact Or.inl ⟨g, h, ht⟩
      · simp at h
        subst h
        simp at ht
        exact Or.inr ht
    · rintro (⟨g, hg, ht⟩ | rfl)
      · exact ⟨g, List.mem_append.mpr (Or.inl hg), ht⟩
      · exact ⟨(path, [t]), List.mem_append.mpr (Or.inr (by simp)), by simp⟩

theorem buildImportGroups_foldl_mem (comps : List String) :
    ∀ (gs : List (String × List String)) (t : String),
      (∀ c ∈ comps, (importPathFor c).isSome) →
      (t ∈ groupsComponents (comps.foldl (fun gs comp =>
          match importPathFor comp with
          | some path => addToGroups gs path comp
          | none => gs) gs) ↔
        (t ∈ groupsComponents gs ∨ t ∈ comps)) := by
  induction comps with
  | nil => intro gs t _; simp
  | cons c rest ih =>
      intro gs t hall
      have hc := hall c (by simp)
      cases hp : importPathFor c with
      | none => rw [hp] at hc; simp at hc
      | some path =>
          simp only [List.foldl_cons, hp]
          rw [ih (addToGroups gs path c) t (fun c' h => hall c' (by simp [h]))]
          rw [addToGroups_mem]
          simp [List.mem_cons]
          tauto

theorem buildImportGroups_mem (comps : List String) (t : String)
    (hall : ∀ c ∈ comps, (importPathFor c).isSome) :
    t ∈ groupsComponents (buildImportGroups comps) ↔ t ∈ comps := by
  unfold buildImportGroups
  rw [buildImportGroups_foldl_mem comps [] t hall]
  simp [groupsComponents]

theorem importPathFor_allowed (t : String) (h : t ∈ ALLOWED_COMPONENT_TYPES) :
    (importPathFor t).isSome := by
  fin_cases h <;> decide
theorem listStartsWith_append_self (p b : List Char) :
    listStartsWith p (p ++ b) = true := by
  induction p with
  | nil => rfl
  | cons c cs ih => simp [listStartsWith, ih]

theorem splitAtSub_isSome_mid (p : List Char) :
    ∀ (a b : List Char), (splitAtSub p (a ++ (p ++ b))).isSome = true := by
  intro a
  induction a with
  | nil =>
      intro b
      cases hp : p with
      | nil =>
          cases b with
          | nil => rfl
          | cons c rest => simp [splitAtSub, listStartsWith]
      | cons q qs =>
          have h2 := listStartsWith_append_self (q :: qs) b
          simp only [List.cons_append] at h2
          simp [splitAtSub, h2]
  | cons c as ih =>
      intro b
      simp only [List.cons_append]
      rw [splitAtSub]
      split
      · rfl
      · have h2 := ih b
        cases hsp : splitAtSub p (as ++ (p ++ b)) with
        | none => rw [hsp] at h2; simp at h2
        | some pr => simp

theorem exists_dropWhile_append (f : Char → Bool) (a x : List Char)
    (hx : ∀ (c : Char) (t : List Char), x = c :: t → f c = false) :
    ∃ a2, (a ++ x).dropWhile f = a2 ++ x := by
  induction a with
  | nil =>
      cases hxx : x with
      | nil => exact ⟨[], rfl⟩
      | cons c t =>
          have := hx c t hxx
          exact ⟨[], by simp [List.dropWhile, this]⟩
  | cons c as ih =>
      by_cases hc : f c = true
      · obtain ⟨a2, ha2⟩ := ih
        exact ⟨a2, by simp [List.dropWhile, hc, ha2]⟩
      · exact ⟨c :: as, by simp [List.dropWhile, hc]⟩

theorem jsIncludes_jsTrim_of_mid (s : String) (p : String) (a b : List Char)
    (hs : s.data = a ++ (p.data ++ b))
    (hne : p.data ≠ [])
    (hhead : ∀ c t, p.data = c :: t → isTrimSpace c = false)
    (hlast : ∀ c t, p.data.reverse = c :: t → isTrimSpace c = false) :
    jsIncludes (jsTrim s) p = true := by
  obtain ⟨a2, ha2⟩ := exists_dropWhile_append isTrimSpace a (p.data ++ b)
    (by
      intro c t hct
      cases hp : p.data with
      | nil => exact (hne hp).elim
      | cons q qs =>
          rw [hp] at hct
          simp only [List.cons_append] at hct
          injection hct with hc ht
          subst hc
          exact hhead q qs hp)
  obtain ⟨b2, hb2⟩ := exists_dropWhile_append isTrimSpace b.reverse
    (p.data.reverse ++ a2.reverse)
    (by
      intro c t hct
      cases hpr : p.data.reverse with
      | nil => simp at hpr; exact (hne hpr).elim
      | cons q qs =>
          rw [hpr] at hct
          simp only [List.cons_append] at hct
          injection hct with hc ht
          subst hc
          exact hlast q qs hpr)
  have hdata : (jsTrim s).data = a2 ++ (p.data ++ b2.reverse) := by
    show (((s.data.dropWhile isTrimSpace).reverse.dropWhile isTrimSpace).reverse : List Char)
      = a2 ++ (p.data ++ b2.reverse)
    rw [hs, ha2]
    have : (a2 ++ (p.data ++ b)).reverse = b.reverse ++ (p.data.reverse ++ a2.reverse) := by
      simp [List.reverse_append]
    rw [this, hb2]
    simp [List.reverse_append]
  unfold jsIncludes
  rw [hdata]
  exact splitAtSub_isSome_mid p.data a2 b2.reverse
theorem head_nonspace_cond (l : List Char)
    (h : (match l with | [] => true | c :: _ => ¬ isTrimSpace c) = true) :
    ∀ c t, l = c :: t → isTrimSpace c = false := by
  intro c t hl
  subst hl
  simpa using h

/-- C4: for every document all of whose node types are registry-known
(a consequence of validating), the final import-group computation that
produces the import block references exactly the component types
present in the document plus the always-imported `Container`, and the
emitted code wraps the rendered output in a `<Container>` element. -/
theorem C4_imports_exact_plus_container (ast : UIAST)
    (hall : ∀ t ∈ typesInDoc ast, t ∈ ALLOWED_COMPONENT_TYPES) :
    (∀ t, t ∈ groupsComponents
        (finalImportGroupsFor (generateCodeFromAST ast).usedComponents) ↔
      (t ∈ typesInDoc ast ∨ t = "Container")) ∧
    jsIncludes (generateCodeFromAST ast).code "<Container>" = true ∧
    jsIncludes (generateCodeFromAST ast).code "</Container>" = true := by
  have hused : ∀ t, t ∈ (generateCodeFromAST ast).usedComponents ↔
      t ∈ typesInDoc ast := by
    intro t
    have h := renderChildren_usedComponents ast.components
      (fun c _ => renderChild_usedComponents c) ⟨[], [], [], []⟩ 2 hall t
    have hshow : (generateCodeFromAST ast).usedComponents =
        (renderChildren ⟨[], [], [], []⟩ 2 ast.components).1.usedComponents := rfl
    rw [hshow, h]
    simp [typesInDoc]
  refine ⟨?_, ?_, ?_⟩
  · intro t
    have hpaths : ∀ c ∈ (generateCodeFromAST ast).usedComponents ++ ["Container"],
        (importPathFor c).isSome := by
      intro c hc
      rcases List.mem_append.mp hc with h | h
      · exact importPathFor_allowed c (hall c ((hused c).mp h))
      · simp at h
        subst h
        decide
    have := buildImportGroups_mem
      ((generateCodeFromAST ast).usedComponents ++ ["Container"]) t hpaths
    unfold finalImportGroupsFor
    rw [this]
    simp only [List.mem_append, List.mem_singleton]
    rw [hused t]
  · obtain ⟨A, B, hAB⟩ : ∃ A B : String, (generateCodeFromAST ast).code =
        jsTrim (A ++ "\n\n  return (\n    <Container>\n" ++ B ++
          "\n    </Container>\n  );\n\x7d\n") := ⟨_, _, rfl⟩
    rw [hAB]
    apply jsIncludes_jsTrim_of_mid _ _
      (A.data ++ ("\n\n  return (\n    " : String).data)
      (("\n" : String).data ++ (B.data ++ ("\n    </Container>\n  );\n\x7d\n" : String).data))
    · simp only [String.data_append]
      simp [List.append_assoc]
    · decide
    · exact head_nonspace_cond _ (by decide)
    · exact head_nonspace_cond _ (by decide)
  · obtain ⟨A, B, hAB⟩ : ∃ A B : String, (generateCodeFromAST ast).code =
        jsTrim (A ++ "\n\n  return (\n    <Container>\n" ++ B ++
          "\n    </Container>\n  );\n\x7d\n") := ⟨_, _, rfl⟩
    rw [hAB]
    apply jsIncludes_jsTrim_of_mid _ _
      (A.data ++ (("\n\n  return (\n    <Container>\n" : String).data ++
        (B.data ++ ("\n    " : String).data)))
      (("\n  );\n\x7d\n" : String).data)
    · simp only [String.data_append]
      simp [List.append_assoc]
    · decide
    · exact head_nonspace_cond _ (by decide)
    · exact head_nonspace_cond _ (by decide)

/-- C4 witness: the import-set theorem applied at a concrete
document. -/
theorem C4_imports_exact_plus_container_witness :
    (∀ t ∈ typesInDoc c4Doc, t ∈ ALLOWED_COMPONENT_TYPES) ∧
    jsIncludes (generateCodeFromAST c4Doc).code "<Container>" = true ∧
    ("Card" ∈ groupsComponents
      (finalImportGroupsFor (generateCodeFromAST c4Doc).usedComponents) ↔
      ("Card" ∈ typesInDoc c4Doc ∨ "Card" = "Container")) :=
  ⟨by decide,
   (C4_imports_exact_plus_container c4Doc (by decide)).2.1,
   (C4_imports_exact_plus_container c4Doc (by decide)).1 "Card"⟩

/-! ## Claim C3 -/


theorem validateChildrenWalk_errors_empty (cs : List Child)
    (hP : ∀ c ∈ cs, ∀ path, ((validateNodeWalk path c).1 = [] ↔
      (allNodesC c).all nodeSchemaOk = true)) :
    ∀ (path : String) (i : Nat),
      ((validateChildrenWalk path i cs).1 = [] ↔
        (allNodesL cs).all nodeSchemaOk = true) := by
  induction cs with
  | nil => intro path i; simp [validateChildrenWalk, allNodesL]
  | cons c rest ih =>
      intro path i
      have hc := hP c (by simp)
      have hrest := ih (fun c' h' => hP c' (by simp [h'])) path (i + 1)
      simp only [validateChildrenWalk, allNodesL, List.all_append, List.append_eq_nil]
      cases hct : c.isText
      · simp only [Bool.false_eq_true, if_false]
        rw [Bool.and_eq_true, ← hc (path ++ ".children[" ++ toString i ++ "]"), ← hrest]
      · simp only [if_true]
        have hnodes : allNodesC c = [] := by
          cases c with
          | text s => rfl
          | node ty props ch => simp [Child.isText] at hct
        rw [hnodes]
        simp only [List.all_nil, Bool.true_and]
        rw [← hrest]
        simp

theorem validateNodeWalk_errors_empty :
    ∀ (c : Child) (path : String),
      ((validateNodeWalk path c).1 = [] ↔ (allNodesC c).all nodeSchemaOk = true) := by
  intro c
  induction c using childInduction with
  | htext s => intro path; simp [validateNodeWalk, allNodesC]
  | hnode ty props cs ihc =>
      intro path
      have hrest := validateChildrenWalk_errors_empty cs (fun c' h' => ihc c' h') path 0
      cases hsf : schemaFor ty with
      | none =>
          simp only [validateNodeWalk, hsf, allNodesC, List.all_cons, List.append_eq_nil]
          constructor
          · rintro ⟨h1, _⟩; simp at h1
          · intro h
            rw [Bool.and_eq_true] at h
            have h1 : nodeSchemaOk (Child.node ty props cs) = true := h.1
            simp [nodeSchemaOk, hsf] at h1
      | some schema =>
          cases hps : parseStrictProps schema props with
          | ok data =>
              simp only [validateNodeWalk, hsf, hps, allNodesC, List.all_cons,
                List.append_eq_nil]
              have hok : nodeSchemaOk (Child.node ty props cs) = true := by
                simp [nodeSchemaOk, hsf, hasInvalidIssue, hps]
              rw [hok]
              simp only [Bool.true_and, true_and]
              exact hrest
          | error issues =>
              simp only [validateNodeWalk, hsf, hps, allNodesC, List.all_cons,
                List.append_eq_nil]
              have hinv : (issues.filterMap (fun i =>
                  match i with
                  | PropIssue.invalid k =>
                      some (path ++ ".props." ++ k ++ ": Invalid value")
                  | PropIssue.unrecognized _ => none) = [] ↔
                  nodeSchemaOk (Child.node ty props cs) = true) := by
                rw [List.filterMap_eq_nil_iff]
                simp only [nodeSchemaOk, hsf, hasInvalidIssue, hps, Bool.not_eq_true',
                  List.any_eq_false]
                constructor
                · intro h iss hiss
                  have h2 := h iss hiss
                  cases iss <;> simp_all
                · intro h iss hiss
                  have h2 := h iss hiss
                  cases iss <;> simp_all
              rw [Bool.and_eq_true, ← hinv, ← hrest]

theorem validateTopWalk_errors_empty (cs : List Child) :
    ∀ (i : Nat), ((validateTopWalk i cs).1 = [] ↔ (allNodesL cs).all nodeSchemaOk = true) := by
  induction cs with
  | nil => intro i; simp [validateTopWalk, allNodesL]
  | cons c rest ih =>
      intro i
      simp only [validateTopWalk, allNodesL, List.all_append, List.append_eq_nil]
      rw [Bool.and_eq_true,
        ← validateNodeWalk_errors_empty c ("components[" ++ toString i ++ "]"), ← ih (i + 1)]
/-- C3: `validateUIAST(D).valid` is true exactly when the document
parses against the top-level schema (which itself enforces that every
node type is registry-known) and every node passes its type's property
schema after default application with no error-level issue
(unrecognized extra keys are warnings and do not affect validity); and
whenever validity fails there is a corresponding error entry. -/
theorem C3_validate_valid_iff (d : JValue) :
    ((validateUIAST d).valid = true ↔
      ∃ ast, parseUIAST d = Except.ok ast ∧
        ∀ c ∈ allNodesDoc ast, nodeSchemaOk c = true) ∧
    ((validateUIAST d).valid = false → (validateUIAST d).errors ≠ []) := by
  cases hp : parseUIAST d with
  | error e =>
      constructor
      · simp only [validateUIAST, hp]
        constructor
        · intro h; simp at h
        · rintro ⟨ast, hast, _⟩; simp at hast
      · intro _
        simp only [validateUIAST, hp]
        simp
  | ok ast =>
      have hw := validateTopWalk_errors_empty ast.components 0
      constructor
      · simp only [validateUIAST, hp]
        constructor
        · intro h
          refine ⟨ast, rfl, ?_⟩
          intro c hc
          have hempty : (validateTopWalk 0 ast.components).1 = [] := by
            simpa [List.isEmpty_iff] using h
          have := hw.mp hempty
          exact List.all_eq_true.mp this c hc
        · rintro ⟨ast2, hast2, hok⟩
          injection hast2 with hast2
          subst hast2
          have : (validateTopWalk 0 ast.components).1 = [] :=
            hw.mpr (List.all_eq_true.mpr hok)
          simp [this, List.isEmpty_iff]
      · intro hvalid
        simp only [validateUIAST, hp] at hvalid ⊢
        intro hnil
        rw [hnil] at hvalid
        simp at hvalid
set_option maxRecDepth 10000 in
/-- C3 witness: a valid document, an unknown-component document and an
out-of-domain-value document, the latter two shown to carry errors via
the main theorem. -/
theorem C3_validate_valid_iff_witness :
    (validateUIAST c3GoodJ).valid = true ∧
    (validateUIAST c3UnknownTypeJ).valid = false ∧
    (validateUIAST c3UnknownTypeJ).errors ≠ [] ∧
    (validateUIAST c3BadValueJ).valid = false ∧
    (validateUIAST c3BadValueJ).errors ≠ [] := by
  have h2 : (validateUIAST c3UnknownTypeJ).valid = false := rfl
  have h4 : (validateUIAST c3BadValueJ).valid = false := rfl
  exact ⟨rfl, h2, (C3_validate_valid_iff c3UnknownTypeJ).2 h2, h4,
    (C3_validate_valid_iff c3BadValueJ).2 h4⟩

end DUG
